import Mathlib

/-!
Verification of the CLD1015 current-sweep automation program.

Rust sources embedded here: `src/experiment.rs` (`run_current_sweep`) and
`src/mpm210h.rs` (`MPM210H`).  Modelling conventions:

* `f64` values are modelled as exact rationals `ℚ` (the program's arithmetic
  is embedded symbolically; floating-point rounding, `inf` and `NaN` are
  outside the model).  `usize` is `ℕ`; the Rust cast `f64 as usize` of a
  floored value is `Int.toNat` of the floor, which saturates negative values
  to `0` exactly as the Rust cast does.
* Rust `&str` text is modelled as `List Char`; `str::trim` and
  `str::split` are embedded below (`trimChars`, `splitOn`), with trimming
  restricted to the ASCII whitespace actually produced by line-oriented
  instrument I/O.
* The two VISA transports (the CLD1015 source and the HP-70952B optical
  spectrum analyzer) are modelled as a single fault-injection environment:
  a list of per-operation outcomes, consumed one entry per transport
  operation (write or read).  An `ok` entry lets a write succeed or supplies
  a read's response line; an `err` entry makes the operation fail with a
  numeric error code, as a VISA I/O error would.
* Commands are embedded as a structured `Cmd` type; each constructor stands
  for one literal command string of the source (listed at the constructor).
* Observable effects (commands sent, response lines read, summary rows
  written, warnings printed, trace files written) are accumulated in the
  state so that theorems can speak about them.
-/

namespace CLD

/-! ## Text primitives -/

/-- ASCII whitespace as trimmed by `str::trim` on instrument response
lines (the non-ASCII Unicode whitespace Rust also trims never occurs in
this protocol and is outside the model). -/
def isWs (c : Char) : Bool :=
  c = ' ' || c = '\t' || c = '\n' || c = '\r'

/-- Rust `str::trim`: remove leading and trailing whitespace. -/
def trimChars (cs : List Char) : List Char :=
  ((cs.dropWhile isWs).reverse.dropWhile isWs).reverse

/-- Rust `str::split(delim)`: split into the (possibly empty) fields
between delimiter occurrences; the empty input yields one empty field. -/
def splitOn (delim : Char) : List Char → List (List Char)
  | [] => [[]]
  | c :: cs =>
    let r := splitOn delim cs
    if c = delim then [] :: r
    else
      match r with
      | h :: t => (c :: h) :: t
      | [] => [[c]]

/-! ## Numeric response parsing

`experiment.rs` decodes instrument responses with Rust's
`str::parse::<f64>` / `parse::<usize>` after `str::trim`.  The grammar of
`parse::<f64>` (sign, integral digits, optional fraction, optional
exponent; at least one mantissa digit; nothing else) is embedded below,
producing the exact rational value of the literal.  The special forms
`inf`/`infinity`/`NaN` are not representable in `ℚ` and are outside the
model. -/

/-- Accumulated decimal value of a run of ASCII digit characters,
as computed by a fold (`48` is the code of `'0'`). -/
def digitsVal (cs : List Char) : ℕ :=
  cs.foldl (fun n c => 10 * n + (c.toNat - 48)) 0

/-- Strip one leading sign character, returning whether it was `'-'`. -/
def splitSign (cs : List Char) : Bool × List Char :=
  match cs with
  | [] => (false, [])
  | c :: rest =>
    if c = '-' then (true, rest)
    else if c = '+' then (false, rest)
    else (false, cs)

/-- The value assembled from sign, integral digits, fraction digits and a
decimal exponent. -/
def mkVal (neg : Bool) (ds1 ds2 : List Char) (ex : ℤ) : ℚ :=
  (if neg then -1 else 1) * ((digitsVal (ds1 ++ ds2) : ℚ) / 10 ^ ds2.length) * 10 ^ ex

/-- Rust `str::parse::<f64>` on a list of characters, returning the exact
rational value of a decimal floating-point literal, or `none` when the
input is not such a literal. -/
def parseF64 (cs : List Char) : Option ℚ :=
  let sp := splitSign cs
  let ds1 := sp.2.takeWhile Char.isDigit
  let rest1 := sp.2.dropWhile Char.isDigit
  let fr : List Char × List Char :=
    match rest1 with
    | [] => ([], [])
    | c :: r =>
      if c = '.' then (r.takeWhile Char.isDigit, r.dropWhile Char.isDigit)
      else ([], rest1)
  let ds2 := fr.1
  let rest2 := fr.2
  if ds1 = [] ∧ ds2 = [] then none
  else
    match rest2 with
    | [] => some (mkVal sp.1 ds1 ds2 0)
    | c :: r =>
      if c = 'e' ∨ c = 'E' then
        let sp2 := splitSign r
        let eds := sp2.2.takeWhile Char.isDigit
        let r2 := sp2.2.dropWhile Char.isDigit
        if eds = [] ∨ r2 ≠ [] then none
        else
          some (mkVal sp.1 ds1 ds2
            (if sp2.1 then -(digitsVal eds : ℤ) else (digitsVal eds : ℤ)))
      else none

/-- Rust `str::parse::<usize>`: an optional `'+'` followed by one or more
ASCII digits (overflow is outside the model). -/
def parseUsize (cs0 : List Char) : Option ℕ :=
  let cs :=
    match cs0 with
    | '+' :: rest => rest
    | other => other
  if cs ≠ [] ∧ cs.all Char.isDigit then some (digitsVal cs) else none

/-- Scalar decode of one analyzer response line, from `experiment.rs`
lines 105 and 114: `line.trim().parse::<f64>().unwrap_or(fallback) * scale`. -/
def parse_scalar (line : List Char) (fallback scale : ℚ) : ℚ :=
  ((parseF64 (trimChars line)).getD fallback) * scale

/-- Trace decode of one analyzer response line, from `experiment.rs`
lines 149 and 153: split the trimmed line on `','` and parse each field
independently with per-field fallback `-100.0` (fields are not trimmed). -/
def parse_trace (line : List Char) : List ℚ :=
  (splitOn ',' (trimChars line)).map (fun v => (parseF64 v).getD (-100))

/-! ## The sweep orchestrator (`run_current_sweep`, `experiment.rs`) -/

/-- The two instruments driven by the sweep. -/
inductive Dev
  | cld
  | osa
deriving DecidableEq

/-- Structured commands; each constructor stands for one literal command
string sent by `run_current_sweep`:
`sngls` = `"SNGLS;"`, `centerSpan` = `"CENTERWL 980NM;SPANWL 20NM;"`,
`mdsQ` = `"MDS?;"`, `outputState b` = `"OUTPut:STATe {0|1}"`,
`setCurrent a` = `"SOURce:CURRent:LEVel:IMMediate:AMPLitude {a:.6}"`
(`a` in amps), `tsDone` = `"TS;DONE?;"`, `mkpkHi` = `"MKPK HI;"`,
`mkwlQ` = `"MKWL?;"`, `mkaQ` = `"MKA?;"`, `traQ` = `"TRA?;"`,
`sweepOff` = `"SWEEP OFF;"`, `systErrQ` = `"SYST:ERR?"`,
`xerrQ` = `"XERR?;"`. -/
inductive Cmd
  | sngls
  | centerSpan
  | mdsQ
  | outputState (b : Bool)
  | setCurrent (amps : ℚ)
  | tsDone
  | mkpkHi
  | mkwlQ
  | mkaQ
  | traQ
  | sweepOff
  | systErrQ
  | xerrQ
deriving DecidableEq

/-- Observable transport events: a command written to a device, or a
response line read from it. -/
inductive Ev
  | write (d : Dev) (c : Cmd)
  | read (d : Dev) (resp : List Char)
deriving DecidableEq

/-- Outcome of one transport operation, supplied by the environment:
success (with the response line, ignored by writes) or an I/O error with a
numeric code. -/
inductive TRes
  | ok (s : List Char)
  | err (e : ℕ)
deriving DecidableEq

/-- The sweep state: remaining environment, event log, summary-CSV rows
`(current mA, peak wavelength nm, peak power dBm)`, printed warnings
`(point index, trimmed response)`, trace files keyed by current with their
`(wavelength, power)` rows, and the trace point count in use. -/
structure St where
  env : List TRes
  evs : List Ev
  rows : List (ℚ × ℚ × ℚ)
  warns : List (ℕ × List Char)
  traces : List (ℚ × List (ℚ × ℚ))
  ntp : ℕ
deriving DecidableEq

/-- The sweep computation: state in, fallible result plus state out. -/
def M (α : Type) : Type := St → Except ℕ α × St

def M.pure (a : α) : M α := fun s => (Except.ok a, s)

def M.bind (x : M α) (f : α → M β) : M β := fun s =>
  match x s with
  | (Except.ok a, s1) => f a s1
  | (Except.error e, s1) => (Except.error e, s1)

instance : Monad M where
  pure := M.pure
  bind := M.bind

/-- Write a command: consumes one environment entry; on success the write
event is logged, on failure the error aborts (`.map_err(io_to_vs_err)?`). -/
def wr (d : Dev) (c : Cmd) : M Unit := fun s =>
  match s.env with
  | TRes.ok _ :: rest =>
    (Except.ok (), { s with env := rest, evs := s.evs ++ [Ev.write d c] })
  | TRes.err e :: rest => (Except.error e, { s with env := rest })
  | [] => (Except.error 0, s)

/-- Read one response line: consumes one environment entry; on success the
read event is logged and the line returned, on failure the error aborts. -/
def rd (d : Dev) : M (List Char) := fun s =>
  match s.env with
  | TRes.ok r :: rest =>
    (Except.ok r, { s with env := rest, evs := s.evs ++ [Ev.read d r] })
  | TRes.err e :: rest => (Except.error e, { s with env := rest })
  | [] => (Except.error 0, s)

/-- Append one summary row (`writeln!` to `current_sweep_results.csv`). -/
def recordRow (r : ℚ × ℚ × ℚ) : M Unit := fun s =>
  (Except.ok (), { s with rows := s.rows ++ [r] })

/-- Log the non-fatal sweep-completion warning (`println!`). -/
def recordWarn (w : ℕ × List Char) : M Unit := fun s =>
  (Except.ok (), { s with warns := s.warns ++ [w] })

/-- Write one per-point trace file. -/
def recordTrace (t : ℚ × List (ℚ × ℚ)) : M Unit := fun s =>
  (Except.ok (), { s with traces := s.traces ++ [t] })

/-- Remember the trace point count chosen before the loop. -/
def setNtp (n : ℕ) : M Unit := fun s =>
  (Except.ok (), { s with ntp := n })

/-- `center_wl` at `experiment.rs` line 38. -/
def centerWl : ℚ := 980

/-- `span_wl` at `experiment.rs` line 39. -/
def spanWl : ℚ := 20

/-- `start_wl = center_wl - span_wl / 2` (`experiment.rs` line 40). -/
def startWl : ℚ := centerWl - spanWl / 2

/-- `stop_wl = center_wl + span_wl / 2` (`experiment.rs` line 41). -/
def stopWl : ℚ := centerWl + spanWl / 2

/-- The trace-writing loop of `experiment.rs` lines 150-156: enumerate the
comma-separated fields, and for each index `j < ntp` write the row
`(start_wl + j * wstep, field parsed with fallback -100.0)`; indices at or
beyond `ntp` are skipped. -/
def traceRows (sw wstep : ℚ) (ntp : ℕ) : ℕ → List (List Char) → List (ℚ × ℚ)
  | _, [] => []
  | j, v :: vs =>
    if j < ntp then
      (sw + (j : ℚ) * wstep, (parseF64 v).getD (-100)) ::
        traceRows sw wstep ntp (j + 1) vs
    else traceRows sw wstep ntp (j + 1) vs

/-- `num_points` at `experiment.rs` line 30:
`((stop_ma - start_ma) / step_ma).floor() as usize + 1`.  The `as usize`
cast saturates a negative floor to `0`. -/
def numPoints (startMa stopMa stepMa : ℚ) : ℕ :=
  (Int.floor ((stopMa - startMa) / stepMa)).toNat + 1

/-- The commanded currents (mA): `start_ma + i * step_ma` for the next `k`
indices beginning at `i`. -/
def currents (startMa stepMa : ℚ) : ℕ → ℕ → List ℚ
  | _, 0 => []
  | i, k + 1 => (startMa + (i : ℚ) * stepMa) :: currents startMa stepMa (i + 1) k

/-- One iteration of the sweep loop (`experiment.rs` lines 68-159). -/
def sweepPoint (startMa stepMa : ℚ) (ntp : ℕ) (i : ℕ) : M Unit := do
  let currentMa := startMa + (i : ℚ) * stepMa
  let currentA := currentMa / 1000
  wr Dev.cld (Cmd.setCurrent currentA)
  wr Dev.osa Cmd.tsDone
  let doneResp ← rd Dev.osa
  if trimChars doneResp ≠ ['1'] then recordWarn (i, trimChars doneResp)
  wr Dev.osa Cmd.mkpkHi
  wr Dev.osa Cmd.mkwlQ
  let pw ← rd Dev.osa
  let peakWlNm := parse_scalar pw 0 (10 ^ 9)
  wr Dev.osa Cmd.mkaQ
  let pp ← rd Dev.osa
  let peakPowerDbm := parse_scalar pp (-100) 1
  recordRow (currentMa, peakWlNm, peakPowerDbm)
  wr Dev.osa Cmd.traQ
  let td ← rd Dev.osa
  let wstep := (stopWl - startWl) / ((ntp : ℚ) - 1)
  recordTrace (currentMa, traceRows startWl wstep ntp 0 (splitOn ',' (trimChars td)))

/-- The sweep loop `for i in 0..num_points`, with `i` the next index and the
second argument the number of iterations remaining. -/
def sweepLoop (startMa stepMa : ℚ) (ntp : ℕ) : ℕ → ℕ → M Unit
  | _, 0 => M.pure ()
  | i, k + 1 => M.bind (sweepPoint startMa stepMa ntp i) fun _ =>
      sweepLoop startMa stepMa ntp (i + 1) k

/-- The straight-line epilogue of `run_current_sweep`
(`experiment.rs` lines 161-187): final source off, sweep-mode off and the
two error-queue checks. -/
def runPost : M Unit := do
  wr Dev.cld (Cmd.outputState false)
  wr Dev.osa Cmd.sweepOff
  wr Dev.cld Cmd.systErrQ
  let _ ← rd Dev.cld
  wr Dev.osa Cmd.xerrQ
  let _ ← rd Dev.osa

/-- `run_current_sweep` (`experiment.rs` lines 11-194): OSA setup, trace
length query, source off/on, the sweep loop, then the epilogue `runPost`.
Fixed sleeps have no observable effect in the model and are omitted. -/
def run_current_sweep (startMa stopMa stepMa : ℚ) : M Unit := do
  let n := numPoints startMa stopMa stepMa
  wr Dev.osa Cmd.sngls
  wr Dev.osa Cmd.centerSpan
  wr Dev.osa Cmd.mdsQ
  let mds ← rd Dev.osa
  let ntp := (parseUsize (trimChars mds)).getD 800
  setNtp ntp
  wr Dev.cld (Cmd.outputState false)
  wr Dev.cld (Cmd.outputState true)
  sweepLoop startMa stepMa ntp 0 n
  runPost

/-- Initial sweep state over a given environment. -/
def initSt (env : List TRes) : St := ⟨env, [], [], [], [], 0⟩

/-- Extract the amps argument of a source set-current write event. -/
def evCurrent : Ev → Option ℚ
  | Ev.write Dev.cld (Cmd.setCurrent q) => some q
  | _ => none

/-- The ten transport events of one successful sweep iteration. -/
def pointEvs (startMa stepMa : ℚ) (i : ℕ) (dn pw pp td : List Char) : List Ev :=
  [Ev.write Dev.cld (Cmd.setCurrent ((startMa + (i : ℚ) * stepMa) / 1000)),
   Ev.write Dev.osa Cmd.tsDone, Ev.read Dev.osa dn,
   Ev.write Dev.osa Cmd.mkpkHi, Ev.write Dev.osa Cmd.mkwlQ, Ev.read Dev.osa pw,
   Ev.write Dev.osa Cmd.mkaQ, Ev.read Dev.osa pp,
   Ev.write Dev.osa Cmd.traQ, Ev.read Dev.osa td]

end CLD

namespace CLD

/-! ## Execution lemmas for the monadic embedding -/

lemma bind_apply {α β : Type} (x : M α) (f : α → M β) (s : St) :
    (x >>= f) s =
      match x s with
      | (Except.ok a, s1) => f a s1
      | (Except.error e, s1) => (Except.error e, s1) := rfl

lemma pure_apply {α : Type} (a : α) (s : St) :
    (pure a : M α) s = (Except.ok a, s) := rfl

/-- Full characterization of one successful sweep iteration: with ten
successful transport operations it logs the ten point events, records the
summary row, warns exactly when the trimmed completion response is not
`"1"`, and writes the point's trace file. -/
lemma sweepPoint_ok (startMa stepMa : ℚ) (ntp i : ℕ)
    (w1 w2 dn w3 w4 pw w5 pp w6 td : List Char) (rest : List TRes)
    (evs : List Ev) (rows : List (ℚ × ℚ × ℚ)) (warns : List (ℕ × List Char))
    (traces : List (ℚ × List (ℚ × ℚ))) (n0 : ℕ) :
    sweepPoint startMa stepMa ntp i
      ⟨TRes.ok w1 :: TRes.ok w2 :: TRes.ok dn :: TRes.ok w3 :: TRes.ok w4 ::
        TRes.ok pw :: TRes.ok w5 :: TRes.ok pp :: TRes.ok w6 :: TRes.ok td :: rest,
       evs, rows, warns, traces, n0⟩ =
      (Except.ok (),
       ⟨rest, evs ++ pointEvs startMa stepMa i dn pw pp td,
        rows ++ [(startMa + (i : ℚ) * stepMa, parse_scalar pw 0 (10 ^ 9),
                  parse_scalar pp (-100) 1)],
        warns ++ (if trimChars dn = ['1'] then [] else [(i, trimChars dn)]),
        traces ++ [(startMa + (i : ℚ) * stepMa,
          traceRows startWl ((stopWl - startWl) / ((ntp : ℚ) - 1)) ntp 0
            (splitOn ',' (trimChars td)))],
        n0⟩) := by
  by_cases h : trimChars dn = ['1'] <;>
    simp [sweepPoint, pointEvs, h, wr, rd, recordRow, recordWarn, recordTrace,
      bind_apply, pure_apply]

end CLD

namespace CLD

lemma Mbind_error {α β : Type} (x : M α) (f : α → M β) (s : St) (e : ℕ)
    (h : (x s).1 = Except.error e) :
    M.bind x f s = (Except.error e, (x s).2) := by
  unfold M.bind
  rcases hx : x s with ⟨r, s1⟩
  rw [hx] at h
  cases r <;> simp_all

lemma exists_split10 {α : Type} (xs : List α) (h : 10 ≤ xs.length) :
    ∃ a0 a1 a2 a3 a4 a5 a6 a7 a8 a9 tl,
      xs = a0 :: a1 :: a2 :: a3 :: a4 :: a5 :: a6 :: a7 :: a8 :: a9 :: tl := by
  rcases xs with _ | ⟨a0, xs⟩
  · simp only [List.length_nil] at h; omega
  rcases xs with _ | ⟨a1, xs⟩
  · simp only [List.length_cons, List.length_nil] at h; omega
  rcases xs with _ | ⟨a2, xs⟩
  · simp only [List.length_cons, List.length_nil] at h; omega
  rcases xs with _ | ⟨a3, xs⟩
  · simp only [List.length_cons, List.length_nil] at h; omega
  rcases xs with _ | ⟨a4, xs⟩
  · simp only [List.length_cons, List.length_nil] at h; omega
  rcases xs with _ | ⟨a5, xs⟩
  · simp only [List.length_cons, List.length_nil] at h; omega
  rcases xs with _ | ⟨a6, xs⟩
  · simp only [List.length_cons, List.length_nil] at h; omega
  rcases xs with _ | ⟨a7, xs⟩
  · simp only [List.length_cons, List.length_nil] at h; omega
  rcases xs with _ | ⟨a8, xs⟩
  · simp only [List.length_cons, List.length_nil] at h; omega
  rcases xs with _ | ⟨a9, xs⟩
  · simp only [List.length_cons, List.length_nil] at h; omega
  exact ⟨a0, a1, a2, a3, a4, a5, a6, a7, a8, a9, xs, rfl⟩

/-- If a transport operation fails inside one sweep iteration, the
iteration returns that error; the events logged before the failure contain
no source output-OFF command. -/
lemma sweepPoint_err (startMa stepMa : ℚ) (ntp i : ℕ)
    (rs : List (List Char)) (e : ℕ) (rest : List TRes)
    (evs : List Ev) (rows : List (ℚ × ℚ × ℚ)) (warns : List (ℕ × List Char))
    (traces : List (ℚ × List (ℚ × ℚ))) (n0 : ℕ)
    (h : rs.length < 10) :
    (sweepPoint startMa stepMa ntp i
        ⟨rs.map TRes.ok ++ TRes.err e :: rest, evs, rows, warns, traces, n0⟩).1 =
      Except.error e ∧
    ∃ E : List Ev,
      (sweepPoint startMa stepMa ntp i
          ⟨rs.map TRes.ok ++ TRes.err e :: rest, evs, rows, warns, traces, n0⟩).2.evs =
        evs ++ E ∧
      E.length = rs.length ∧
      E.count (Ev.write Dev.cld (Cmd.outputState false)) = 0 := by
  rcases rs with _ | ⟨a0, rs⟩
  · refine ⟨?_, [], ?_, ?_, ?_⟩ <;>
      simp [sweepPoint, wr, rd, bind_apply]
  rcases rs with _ | ⟨a1, rs⟩
  · refine ⟨?_, [Ev.write Dev.cld (Cmd.setCurrent ((startMa + (i : ℚ) * stepMa) / 1000))],
      ?_, ?_, ?_⟩ <;>
      simp [sweepPoint, wr, rd, bind_apply]
  rcases rs with _ | ⟨a2, rs⟩
  · refine ⟨?_, [Ev.write Dev.cld (Cmd.setCurrent ((startMa + (i : ℚ) * stepMa) / 1000)),
      Ev.write Dev.osa Cmd.tsDone], ?_, ?_, ?_⟩ <;>
      simp [sweepPoint, wr, rd, bind_apply]
  rcases rs with _ | ⟨a3, rs⟩
  · by_cases hd : trimChars a2 = ['1'] <;>
      refine ⟨?_, [Ev.write Dev.cld (Cmd.setCurrent ((startMa + (i : ℚ) * stepMa) / 1000)),
        Ev.write Dev.osa Cmd.tsDone, Ev.read Dev.osa a2], ?_, ?_, ?_⟩ <;>
      simp [sweepPoint, wr, rd, recordWarn, bind_apply, pure_apply, hd]
  rcases rs with _ | ⟨a4, rs⟩
  · by_cases hd : trimChars a2 = ['1'] <;>
      refine ⟨?_, [Ev.write Dev.cld (Cmd.setCurrent ((startMa + (i : ℚ) * stepMa) / 1000)),
        Ev.write Dev.osa Cmd.tsDone, Ev.read Dev.osa a2,
        Ev.write Dev.osa Cmd.mkpkHi], ?_, ?_, ?_⟩ <;>
      simp [sweepPoint, wr, rd, recordWarn, bind_apply, pure_apply, hd]
  rcases rs with _ | ⟨a5, rs⟩
  · by_cases hd : trimChars a2 = ['1'] <;>
      refine ⟨?_, [Ev.write Dev.cld (Cmd.setCurrent ((startMa + (i : ℚ) * stepMa) / 1000)),
        Ev.write Dev.osa Cmd.tsDone, Ev.read Dev.osa a2,
        Ev.write Dev.osa Cmd.mkpkHi, Ev.write Dev.osa Cmd.mkwlQ], ?_, ?_, ?_⟩ <;>
      simp [sweepPoint, wr, rd, recordWarn, bind_apply, pure_apply, hd]
  rcases rs with _ | ⟨a6, rs⟩
  · by_cases hd : trimChars a2 = ['1'] <;>
      refine ⟨?_, [Ev.write Dev.cld (Cmd.setCurrent ((startMa + (i : ℚ) * stepMa) / 1000)),
        Ev.write Dev.osa Cmd.tsDone, Ev.read Dev.osa a2,
        Ev.write Dev.osa Cmd.mkpkHi, Ev.write Dev.osa Cmd.mkwlQ,
        Ev.read Dev.osa a5], ?_, ?_, ?_⟩ <;>
      simp [sweepPoint, wr, rd, recordWarn, bind_apply, pure_apply, hd]
  rcases rs with _ | ⟨a7, rs⟩
  · by_cases hd : trimChars a2 = ['1'] <;>
      refine ⟨?_, [Ev.write Dev.cld (Cmd.setCurrent ((startMa + (i : ℚ) * stepMa) / 1000)),
        Ev.write Dev.osa Cmd.tsDone, Ev.read Dev.osa a2,
        Ev.write Dev.osa Cmd.mkpkHi, Ev.write Dev.osa Cmd.mkwlQ,
        Ev.read Dev.osa a5, Ev.write Dev.osa Cmd.mkaQ], ?_, ?_, ?_⟩ <;>
      simp [sweepPoint, wr, rd, recordWarn, bind_apply, pure_apply, hd]
  rcases rs with _ | ⟨a8, rs⟩
  · by_cases hd : trimChars a2 = ['1'] <;>
      refine ⟨?_, [Ev.write Dev.cld (Cmd.setCurrent ((startMa + (i : ℚ) * stepMa) / 1000)),
        Ev.write Dev.osa Cmd.tsDone, Ev.read Dev.osa a2,
        Ev.write Dev.osa Cmd.mkpkHi, Ev.write Dev.osa Cmd.mkwlQ,
        Ev.read Dev.osa a5, Ev.write Dev.osa Cmd.mkaQ,
        Ev.read Dev.osa a7], ?_, ?_, ?_⟩ <;>
      simp [sweepPoint, wr, rd, recordRow, recordWarn, bind_apply, pure_apply, hd]
  rcases rs with _ | ⟨a9, rs⟩
  · by_cases hd : trimChars a2 = ['1'] <;>
      refine ⟨?_, [Ev.write Dev.cld (Cmd.setCurrent ((startMa + (i : ℚ) * stepMa) / 1000)),
        Ev.write Dev.osa Cmd.tsDone, Ev.read Dev.osa a2,
        Ev.write Dev.osa Cmd.mkpkHi, Ev.write Dev.osa Cmd.mkwlQ,
        Ev.read Dev.osa a5, Ev.write Dev.osa Cmd.mkaQ,
        Ev.read Dev.osa a7, Ev.write Dev.osa Cmd.traQ], ?_, ?_, ?_⟩ <;>
      simp [sweepPoint, wr, rd, recordRow, recordWarn, bind_apply, pure_apply, hd]
  simp only [List.length_cons] at h
  omega

end CLD

namespace CLD

lemma pointEvs_count_off (startMa stepMa : ℚ) (i : ℕ) (dn pw pp td : List Char) :
    (pointEvs startMa stepMa i dn pw pp td).count
      (Ev.write Dev.cld (Cmd.outputState false)) = 0 := by
  simp [pointEvs, List.count_cons]

lemma pointEvs_count_mds (startMa stepMa : ℚ) (i : ℕ) (dn pw pp td : List Char) :
    (pointEvs startMa stepMa i dn pw pp td).count (Ev.write Dev.osa Cmd.mdsQ) = 0 := by
  simp [pointEvs, List.count_cons]

lemma pointEvs_length (startMa stepMa : ℚ) (i : ℕ) (dn pw pp td : List Char) :
    (pointEvs startMa stepMa i dn pw pp td).length = 10 := by
  simp [pointEvs]

lemma pointEvs_filterMap (startMa stepMa : ℚ) (i : ℕ) (dn pw pp td : List Char) :
    (pointEvs startMa stepMa i dn pw pp td).filterMap evCurrent =
      [(startMa + (i : ℚ) * stepMa) / 1000] := by
  simp [pointEvs, evCurrent]

/-- Full-run characterization of the sweep loop when every transport
operation succeeds: it consumes ten environment entries per point, logs no
source output-OFF and no trace-length query, commands exactly the planned
currents in order, and records one summary row per point whose current
column is the planned current. -/
lemma sweepLoop_ok (startMa stepMa : ℚ) (ntp : ℕ) :
    ∀ (k i : ℕ) (rs : List (List Char)) (rest : List TRes)
      (evs : List Ev) (rows : List (ℚ × ℚ × ℚ)) (warns : List (ℕ × List Char))
      (traces : List (ℚ × List (ℚ × ℚ))) (n0 : ℕ),
      rs.length = 10 * k →
      ∃ (L : List Ev) (R : List (ℚ × ℚ × ℚ)) (W : List (ℕ × List Char))
        (T : List (ℚ × List (ℚ × ℚ))),
        sweepLoop startMa stepMa ntp i k
          ⟨rs.map TRes.ok ++ rest, evs, rows, warns, traces, n0⟩ =
          (Except.ok (), ⟨rest, evs ++ L, rows ++ R, warns ++ W, traces ++ T, n0⟩) ∧
        L.length = 10 * k ∧
        L.count (Ev.write Dev.cld (Cmd.outputState false)) = 0 ∧
        L.count (Ev.write Dev.osa Cmd.mdsQ) = 0 ∧
        L.filterMap evCurrent = (currents startMa stepMa i k).map (fun q => q / 1000) ∧
        R.map Prod.fst = currents startMa stepMa i k := by
  intro k
  induction k with
  | zero =>
    intro i rs rest evs rows warns traces n0 hlen
    have hrs : rs = [] := List.length_eq_zero.mp (by omega)
    subst hrs
    exact ⟨[], [], [], [], by simp [sweepLoop, M.pure], by simp, by simp, by simp,
      by simp [currents], by simp [currents]⟩
  | succ k ih =>
    intro i rs rest evs rows warns traces n0 hlen
    obtain ⟨a0, a1, a2, a3, a4, a5, a6, a7, a8, a9, tl, rfl⟩ :=
      exists_split10 rs (by omega)
    have htl : tl.length = 10 * k := by
      simp only [List.length_cons] at hlen; omega
    obtain ⟨L, R, W, T, heq, hL, hoff, hmds, hcur, hrow⟩ :=
      ih (i + 1) tl rest
        (evs ++ pointEvs startMa stepMa i a2 a5 a7 a9)
        (rows ++ [(startMa + (i : ℚ) * stepMa, parse_scalar a5 0 (10 ^ 9),
          parse_scalar a7 (-100) 1)])
        (warns ++ (if trimChars a2 = ['1'] then [] else [(i, trimChars a2)]))
        (traces ++ [(startMa + (i : ℚ) * stepMa,
          traceRows startWl ((stopWl - startWl) / ((ntp : ℚ) - 1)) ntp 0
            (splitOn ',' (trimChars a9)))])
        n0 htl
    refine ⟨pointEvs startMa stepMa i a2 a5 a7 a9 ++ L,
      (startMa + (i : ℚ) * stepMa, parse_scalar a5 0 (10 ^ 9),
        parse_scalar a7 (-100) 1) :: R,
      (if trimChars a2 = ['1'] then [] else [(i, trimChars a2)]) ++ W,
      (startMa + (i : ℚ) * stepMa,
        traceRows startWl ((stopWl - startWl) / ((ntp : ℚ) - 1)) ntp 0
          (splitOn ',' (trimChars a9))) :: T, ?_, ?_, ?_, ?_, ?_, ?_⟩
    · show M.bind _ _ _ = _
      rw [M.bind]
      simp only [List.map_cons, List.cons_append]
      rw [sweepPoint_ok]
      simp only []
      rw [heq]
      simp [List.append_assoc]
    · simp [hL, pointEvs]
      omega
    · simp [List.count_append, hoff, pointEvs_count_off]
    · simp [List.count_append, hmds, pointEvs_count_mds]
    · simp only [List.filterMap_append, pointEvs_filterMap, hcur]
      simp [currents]
    · simp [hrow, currents]

end CLD

namespace CLD

/-- If the first transport failure happens inside the sweep loop, the loop
returns that error at once; only the events of the completed operations
before the failure are logged, and none of them is a source output-OFF
command. -/
lemma sweepLoop_err (startMa stepMa : ℚ) (ntp : ℕ) :
    ∀ (k i : ℕ) (rs : List (List Char)) (e : ℕ) (rest : List TRes)
      (evs : List Ev) (rows : List (ℚ × ℚ × ℚ)) (warns : List (ℕ × List Char))
      (traces : List (ℚ × List (ℚ × ℚ))) (n0 : ℕ),
      rs.length < 10 * k →
      (sweepLoop startMa stepMa ntp i k
          ⟨rs.map TRes.ok ++ TRes.err e :: rest, evs, rows, warns, traces, n0⟩).1 =
        Except.error e ∧
      ∃ E : List Ev,
        (sweepLoop startMa stepMa ntp i k
            ⟨rs.map TRes.ok ++ TRes.err e :: rest, evs, rows, warns, traces, n0⟩).2.evs =
          evs ++ E ∧
        E.length = rs.length ∧
        E.count (Ev.write Dev.cld (Cmd.outputState false)) = 0 := by
  intro k
  induction k with
  | zero =>
    intro i rs e rest evs rows warns traces n0 hlen
    omega
  | succ k ih =>
    intro i rs e rest evs rows warns traces n0 hlen
    by_cases hlt : rs.length < 10
    · obtain ⟨h1, E, h2, h3, h4⟩ :=
        sweepPoint_err startMa stepMa ntp i rs e rest evs rows warns traces n0 hlt
      have hb : sweepLoop startMa stepMa ntp i (k + 1)
          ⟨rs.map TRes.ok ++ TRes.err e :: rest, evs, rows, warns, traces, n0⟩ =
          (Except.error e,
            (sweepPoint startMa stepMa ntp i
              ⟨rs.map TRes.ok ++ TRes.err e :: rest, evs, rows, warns, traces, n0⟩).2) := by
        show M.bind _ _ _ = _
        exact Mbind_error _ _ _ e h1
      rw [hb]
      exact ⟨rfl, E, h2, h3, h4⟩
    · obtain ⟨a0, a1, a2, a3, a4, a5, a6, a7, a8, a9, tl, rfl⟩ :=
        exists_split10 rs (by omega)
      have htl : tl.length < 10 * k := by
        simp only [List.length_cons] at hlen; omega
      have hstep : sweepLoop startMa stepMa ntp i (k + 1)
          ⟨(a0 :: a1 :: a2 :: a3 :: a4 :: a5 :: a6 :: a7 :: a8 :: a9 :: tl).map TRes.ok ++
              TRes.err e :: rest, evs, rows, warns, traces, n0⟩ =
          sweepLoop startMa stepMa ntp (i + 1) k
            ⟨tl.map TRes.ok ++ TRes.err e :: rest,
              evs ++ pointEvs startMa stepMa i a2 a5 a7 a9,
              rows ++ [(startMa + (i : ℚ) * stepMa, parse_scalar a5 0 (10 ^ 9),
                parse_scalar a7 (-100) 1)],
              warns ++ (if trimChars a2 = ['1'] then [] else [(i, trimChars a2)]),
              traces ++ [(startMa + (i : ℚ) * stepMa,
                traceRows startWl ((stopWl - startWl) / ((ntp : ℚ) - 1)) ntp 0
                  (splitOn ',' (trimChars a9)))],
              n0⟩ := by
        show M.bind _ _ _ = _
        rw [M.bind]
        simp only [List.map_cons, List.cons_append]
        rw [sweepPoint_ok]
      rw [hstep]
      obtain ⟨h1, E, h2, h3, h4⟩ :=
        ih (i + 1) tl e rest
          (evs ++ pointEvs startMa stepMa i a2 a5 a7 a9)
          (rows ++ [(startMa + (i : ℚ) * stepMa, parse_scalar a5 0 (10 ^ 9),
            parse_scalar a7 (-100) 1)])
          (warns ++ (if trimChars a2 = ['1'] then [] else [(i, trimChars a2)]))
          (traces ++ [(startMa + (i : ℚ) * stepMa,
            traceRows startWl ((stopWl - startWl) / ((ntp : ℚ) - 1)) ntp 0
              (splitOn ',' (trimChars a9)))])
          n0 htl
      refine ⟨h1, pointEvs startMa stepMa i a2 a5 a7 a9 ++ E, ?_, ?_, ?_⟩
      · rw [h2, List.append_assoc]
      · simp only [List.length_append, pointEvs_length, h3, List.length_cons]
        omega
      · simp [List.count_append, h4, pointEvs_count_off]

end CLD

namespace CLD

/-- The six transport events before the sweep loop. -/
def preEvs (mds : List Char) : List Ev :=
  [Ev.write Dev.osa Cmd.sngls, Ev.write Dev.osa Cmd.centerSpan,
   Ev.write Dev.osa Cmd.mdsQ, Ev.read Dev.osa mds,
   Ev.write Dev.cld (Cmd.outputState false), Ev.write Dev.cld (Cmd.outputState true)]

/-- The six transport events after the sweep loop. -/
def postEvs (q4 q6 : List Char) : List Ev :=
  [Ev.write Dev.cld (Cmd.outputState false), Ev.write Dev.osa Cmd.sweepOff,
   Ev.write Dev.cld Cmd.systErrQ, Ev.read Dev.cld q4,
   Ev.write Dev.osa Cmd.xerrQ, Ev.read Dev.osa q6]

/-- Master characterization of a run in which every transport operation
succeeds: the event log is the fixed six-event preamble, ten events per
sweep point, then the fixed six-event epilogue; the loop events contain no
source output-OFF and no trace-length query; the commanded currents and the
recorded rows follow the plan; and the trace point count in use is the
parsed `MDS?` response with fallback `800`. -/
lemma run_ok (startMa stopMa stepMa : ℚ)
    (r1 r2 r3 mds r5 r6 : List Char) (rsLoop : List (List Char))
    (q1 q2 q3 q4 q5 q6 : List Char) (rest : List TRes)
    (hlen : rsLoop.length = 10 * numPoints startMa stopMa stepMa) :
    ∃ (L : List Ev) (R : List (ℚ × ℚ × ℚ)) (W : List (ℕ × List Char))
      (T : List (ℚ × List (ℚ × ℚ))),
      run_current_sweep startMa stopMa stepMa
        (initSt ((([r1, r2, r3, mds, r5, r6] ++ rsLoop ++
            [q1, q2, q3, q4, q5, q6]).map TRes.ok) ++ rest)) =
        (Except.ok (),
          ⟨rest, preEvs mds ++ L ++ postEvs q4 q6, R, W, T,
            (parseUsize (trimChars mds)).getD 800⟩) ∧
      L.length = 10 * numPoints startMa stopMa stepMa ∧
      L.count (Ev.write Dev.cld (Cmd.outputState false)) = 0 ∧
      L.count (Ev.write Dev.osa Cmd.mdsQ) = 0 ∧
      L.filterMap evCurrent =
        (currents startMa stepMa 0 (numPoints startMa stopMa stepMa)).map
          (fun q => q / 1000) ∧
      R.map Prod.fst = currents startMa stepMa 0 (numPoints startMa stopMa stepMa) := by
  obtain ⟨L, R, W, T, heq, hL, hoff, hmds, hcur, hrow⟩ :=
    sweepLoop_ok startMa stepMa ((parseUsize (trimChars mds)).getD 800)
      (numPoints startMa stopMa stepMa) 0 rsLoop
      (([q1, q2, q3, q4, q5, q6].map TRes.ok) ++ rest)
      (preEvs mds) [] [] [] ((parseUsize (trimChars mds)).getD 800) hlen
  refine ⟨L, R, W, T, ?_, hL, hoff, hmds, hcur, hrow⟩
  simp only [preEvs, List.map_cons, List.map_nil, List.cons_append,
    List.nil_append] at heq
  simp only [run_current_sweep, runPost, initSt, bind_apply, wr, rd, setNtp,
    List.map_append, List.map_cons, List.map_nil, List.cons_append,
    List.nil_append, List.append_assoc, preEvs, postEvs]
  rw [heq]
  simp [List.append_assoc, pure_apply]

end CLD

namespace CLD

/-- If the first transport failure happens before the final source
output-OFF command, the whole run returns that error at once: only the
events preceding the failure are logged (so no further command is issued),
and the source output-OFF command occurs at most once in the log — the
pre-loop one — so the final safety output-OFF is never sent on this path. -/
lemma run_err (startMa stopMa stepMa : ℚ) (rs : List (List Char)) (e : ℕ)
    (rest : List TRes)
    (hk : rs.length < 6 + 10 * numPoints startMa stopMa stepMa) :
    (run_current_sweep startMa stopMa stepMa
        (initSt (rs.map TRes.ok ++ TRes.err e :: rest))).1 = Except.error e ∧
    (run_current_sweep startMa stopMa stepMa
        (initSt (rs.map TRes.ok ++ TRes.err e :: rest))).2.evs.length = rs.length ∧
    (run_current_sweep startMa stopMa stepMa
        (initSt (rs.map TRes.ok ++ TRes.err e :: rest))).2.evs.count
        (Ev.write Dev.cld (Cmd.outputState false)) =
      (if rs.length ≤ 4 then 0 else 1) := by
  rcases rs with _ | ⟨b0, rs⟩
  · refine ⟨?_, ?_, ?_⟩ <;>
      simp [run_current_sweep, initSt, wr, rd, setNtp, bind_apply]
  rcases rs with _ | ⟨b1, rs⟩
  · refine ⟨?_, ?_, ?_⟩ <;>
      simp [run_current_sweep, initSt, wr, rd, setNtp, bind_apply]
  rcases rs with _ | ⟨b2, rs⟩
  · refine ⟨?_, ?_, ?_⟩ <;>
      simp [run_current_sweep, initSt, wr, rd, setNtp, bind_apply]
  rcases rs with _ | ⟨b3, rs⟩
  · refine ⟨?_, ?_, ?_⟩ <;>
      simp [run_current_sweep, initSt, wr, rd, setNtp, bind_apply, List.count_cons]
  rcases rs with _ | ⟨b4, rs⟩
  · refine ⟨?_, ?_, ?_⟩ <;>
      simp [run_current_sweep, initSt, wr, rd, setNtp, bind_apply, List.count_cons]
  rcases rs with _ | ⟨b5, rs⟩
  · refine ⟨?_, ?_, ?_⟩ <;>
      simp [run_current_sweep, initSt, wr, rd, setNtp, bind_apply, List.count_cons]
  have hlt : rs.length < 10 * numPoints startMa stopMa stepMa := by
    simp only [List.length_cons] at hk; omega
  obtain ⟨h1, E, h2, h3, h4⟩ :=
    sweepLoop_err startMa stepMa ((parseUsize (trimChars b3)).getD 800)
      (numPoints startMa stopMa stepMa) 0 rs e rest
      (preEvs b3) [] [] [] ((parseUsize (trimChars b3)).getD 800) hlt
  have hpre : run_current_sweep startMa stopMa stepMa
      (initSt ((b0 :: b1 :: b2 :: b3 :: b4 :: b5 :: rs).map TRes.ok ++
        TRes.err e :: rest)) =
      M.bind
        (sweepLoop startMa stepMa ((parseUsize (trimChars b3)).getD 800) 0
          (numPoints startMa stopMa stepMa))
        (fun _ => runPost)
        ⟨rs.map TRes.ok ++ TRes.err e :: rest, preEvs b3, [], [], [],
          (parseUsize (trimChars b3)).getD 800⟩ := by
    simp only [run_current_sweep, initSt, bind_apply, wr, rd, setNtp,
      List.map_cons, List.cons_append, preEvs]
    rfl
  rw [hpre, Mbind_error _ _ _ e h1]
  refine ⟨rfl, ?_, ?_⟩
  · simp only [h2, List.length_append, List.length_cons]
    simp only [preEvs, List.length_cons, List.length_nil, h3]
    omega
  · rw [h2]
    simp only [List.count_append, h4, List.length_cons]
    have : ¬ (rs.length + 1 + 1 + 1 + 1 + 1 + 1 ≤ 4) := by omega
    simp [preEvs, List.count_cons, this]

end CLD

namespace CLD

lemma currents_length (startMa stepMa : ℚ) :
    ∀ (k i : ℕ), (currents startMa stepMa i k).length = k := by
  intro k
  induction k with
  | zero => intro i; simp [currents]
  | succ k ih => intro i; simp [currents, ih]

lemma currents_mem_le (startMa stepMa : ℚ) (ht : 0 < stepMa) :
    ∀ (k i : ℕ) (x : ℚ), x ∈ currents startMa stepMa i k →
      startMa + (i : ℚ) * stepMa ≤ x := by
  intro k
  induction k with
  | zero => intro i x hx; simp [currents] at hx
  | succ k ih =>
    intro i x hx
    rw [currents] at hx
    rcases List.mem_cons.mp hx with h | h
    · exact h.ge
    · have h1 := ih (i + 1) x h
      have h2 : startMa + (i : ℚ) * stepMa ≤ startMa + ((i : ℚ) + 1) * stepMa := by
        nlinarith
      push_cast at h1
      linarith

/-- With a positive step the commanded currents are strictly increasing. -/
lemma currents_pairwise (startMa stepMa : ℚ) (ht : 0 < stepMa) :
    ∀ (k i : ℕ), List.Pairwise (· < ·) (currents startMa stepMa i k) := by
  intro k
  induction k with
  | zero => intro i; simp [currents]
  | succ k ih =>
    intro i
    rw [currents]
    refine List.pairwise_cons.mpr ⟨?_, ih (i + 1)⟩
    intro x hx
    have h1 := currents_mem_le startMa stepMa ht k (i + 1) x hx
    have h2 : startMa + (i : ℚ) * stepMa < startMa + ((i : ℚ) + 1) * stepMa := by
      nlinarith
    push_cast at h1
    linarith

lemma currents_getLast (startMa stepMa : ℚ) :
    ∀ (k i : ℕ), (currents startMa stepMa i (k + 1)).getLast? =
      some (startMa + ((i + k : ℕ) : ℚ) * stepMa) := by
  intro k
  induction k with
  | zero => intro i; simp [currents]
  | succ k ih =>
    intro i
    show ((startMa + (i : ℚ) * stepMa) :: currents startMa stepMa (i + 1) (k + 1)).getLast? = _
    rw [currents]
    rw [List.getLast?_cons_cons]
    rw [← currents]
    rw [ih (i + 1)]
    congr 1
    push_cast
    ring

lemma numPoints_pos (startMa stopMa stepMa : ℚ) :
    1 ≤ numPoints startMa stopMa stepMa := by
  rw [numPoints]
  exact Nat.le_add_left 1 _

/-- With a positive step and `start ≤ stop` the saturating cast is the
identity and the point count is `⌊(stop - start) / step⌋ + 1`. -/
lemma numPoints_eq (startMa stopMa stepMa : ℚ) (h1 : 0 < stepMa)
    (h2 : startMa ≤ stopMa) :
    (numPoints startMa stopMa stepMa : ℤ) =
      Int.floor ((stopMa - startMa) / stepMa) + 1 := by
  have hq : (0 : ℚ) ≤ (stopMa - startMa) / stepMa :=
    div_nonneg (by linarith) h1.le
  have hf : (0 : ℤ) ≤ Int.floor ((stopMa - startMa) / stepMa) :=
    Int.floor_nonneg.mpr hq
  rw [numPoints]
  push_cast [Int.toNat_of_nonneg hf]
  ring

/-- With a positive step and `stop < start` the ratio is negative, the cast
saturates to zero and the point count is `1`. -/
lemma numPoints_sat (startMa stopMa stepMa : ℚ) (h1 : 0 < stepMa)
    (h2 : stopMa < startMa) :
    numPoints startMa stopMa stepMa = 1 := by
  have hq : (stopMa - startMa) / stepMa < 0 :=
    div_neg_of_neg_of_pos (by linarith) h1
  have hf : Int.floor ((stopMa - startMa) / stepMa) < 0 := by
    rw [Int.floor_lt]
    exact_mod_cast hq
  rw [numPoints, Int.toNat_eq_zero.mpr hf.le]

/-- The last planned current never exceeds `stop` when `start ≤ stop`. -/
lemma last_current_le (startMa stopMa stepMa : ℚ) (h1 : 0 < stepMa)
    (h2 : startMa ≤ stopMa) :
    startMa + ((numPoints startMa stopMa stepMa - 1 : ℕ) : ℚ) * stepMa ≤ stopMa := by
  have hq : (0 : ℚ) ≤ (stopMa - startMa) / stepMa :=
    div_nonneg (by linarith) h1.le
  have hf : (0 : ℤ) ≤ Int.floor ((stopMa - startMa) / stepMa) :=
    Int.floor_nonneg.mpr hq
  have hcast : ((numPoints startMa stopMa stepMa - 1 : ℕ) : ℚ) =
      ((Int.floor ((stopMa - startMa) / stepMa) : ℤ) : ℚ) := by
    rw [numPoints]
    simp only [Nat.add_sub_cancel]
    exact_mod_cast congrArg (fun z : ℤ => (z : ℚ)) (Int.toNat_of_nonneg hf)
  rw [hcast]
  have hle : ((Int.floor ((stopMa - startMa) / stepMa) : ℤ) : ℚ) ≤
      (stopMa - startMa) / stepMa := Int.floor_le _
  have hmul : ((Int.floor ((stopMa - startMa) / stepMa) : ℤ) : ℚ) * stepMa ≤
      ((stopMa - startMa) / stepMa) * stepMa :=
    mul_le_mul_of_nonneg_right hle h1.le
  rw [div_mul_cancel₀ _ (ne_of_gt h1)] at hmul
  linarith

end CLD

namespace CLD

/-- C1 (amended): for every sweep plan with `step_ma > 0` and
`start_ma ≤ stop_ma`, the point count equals
`⌊(stop_ma - start_ma) / step_ma⌋ + 1`, the planned currents are strictly
increasing, the last planned current is
`start_ma + (point_count - 1) * step_ma` and never exceeds `stop_ma`, and a
run of `run_current_sweep` without transport errors records exactly
`point_count` summary rows whose current column is the planned current
sequence.  The original claim omits `start_ma ≤ stop_ma`; without it the
count formula and the bound fail (see the counterexample). -/
theorem claim_c1 (startMa stopMa stepMa : ℚ) (h1 : 0 < stepMa)
    (h2 : startMa ≤ stopMa) :
    (numPoints startMa stopMa stepMa : ℤ) =
      Int.floor ((stopMa - startMa) / stepMa) + 1 ∧
    List.Pairwise (· < ·)
      (currents startMa stepMa 0 (numPoints startMa stopMa stepMa)) ∧
    (currents startMa stepMa 0 (numPoints startMa stopMa stepMa)).getLast? =
      some (startMa + ((numPoints startMa stopMa stepMa - 1 : ℕ) : ℚ) * stepMa) ∧
    startMa + ((numPoints startMa stopMa stepMa - 1 : ℕ) : ℚ) * stepMa ≤ stopMa ∧
    ∀ (r1 r2 r3 mds r5 r6 : List Char) (rsLoop : List (List Char))
      (q1 q2 q3 q4 q5 q6 : List Char) (rest : List TRes),
      rsLoop.length = 10 * numPoints startMa stopMa stepMa →
      (run_current_sweep startMa stopMa stepMa
          (initSt ((([r1, r2, r3, mds, r5, r6] ++ rsLoop ++
            [q1, q2, q3, q4, q5, q6]).map TRes.ok) ++ rest))).1 = Except.ok () ∧
      (run_current_sweep startMa stopMa stepMa
          (initSt ((([r1, r2, r3, mds, r5, r6] ++ rsLoop ++
            [q1, q2, q3, q4, q5, q6]).map TRes.ok) ++ rest))).2.rows.map Prod.fst =
        currents startMa stepMa 0 (numPoints startMa stopMa stepMa) ∧
      (run_current_sweep startMa stopMa stepMa
          (initSt ((([r1, r2, r3, mds, r5, r6] ++ rsLoop ++
            [q1, q2, q3, q4, q5, q6]).map TRes.ok) ++ rest))).2.rows.length =
        numPoints startMa stopMa stepMa := by
  refine ⟨numPoints_eq startMa stopMa stepMa h1 h2,
    currents_pairwise startMa stepMa h1 _ 0, ?_,
    last_current_le startMa stopMa stepMa h1 h2, ?_⟩
  · have hk : numPoints startMa stopMa stepMa =
        (Int.floor ((stopMa - startMa) / stepMa)).toNat + 1 := rfl
    rw [hk]
    have hgl := currents_getLast startMa stepMa
      ((Int.floor ((stopMa - startMa) / stepMa)).toNat) 0
    simpa using hgl
  · intro r1 r2 r3 mds r5 r6 rsLoop q1 q2 q3 q4 q5 q6 rest hlen
    obtain ⟨L, R, W, T, heq, hL, hoff, hmds, hcur, hrow⟩ :=
      run_ok startMa stopMa stepMa r1 r2 r3 mds r5 r6 rsLoop q1 q2 q3 q4 q5 q6
        rest hlen
    rw [heq]
    refine ⟨rfl, hrow, ?_⟩
    have := congrArg List.length hrow
    simpa [currents_length] using this

/-- C1 counterexample: with `start_ma = 10`, `stop_ma = 0`, `step_ma = 1`
the step is positive, yet the emitted point count (1, by saturation) is not
`⌊(stop - start) / step⌋ + 1 = -9`, and the single emitted current `10`
exceeds `stop_ma = 0`. -/
theorem claim_c1_counterexample :
    (0 : ℚ) < 1 ∧
    (numPoints 10 0 1 : ℤ) ≠ Int.floor (((0 : ℚ) - 10) / 1) + 1 ∧
    ¬ ((10 : ℚ) + ((numPoints 10 0 1 - 1 : ℕ) : ℚ) * 1 ≤ 0) := by
  have hfl : ((0 : ℚ) - 10) / 1 = ((-10 : ℤ) : ℚ) := by norm_num
  have hn : numPoints 10 0 1 = 1 := by
    rw [numPoints, hfl, Int.floor_intCast]
    decide
  refine ⟨by norm_num, ?_, ?_⟩
  · rw [hn, hfl, Int.floor_intCast]
    decide
  · rw [hn]
    norm_num

/-- C1 witness: the amended claim instantiated at the plan
`start = 0, stop = 10, step = 5` (3 points). -/
theorem claim_c1_witness :
    (0 : ℚ) < 5 ∧ (0 : ℚ) ≤ 10 ∧
    ((numPoints 0 10 5 : ℤ) = Int.floor (((10 : ℚ) - 0) / 5) + 1 ∧
    List.Pairwise (· < ·) (currents 0 5 0 (numPoints 0 10 5)) ∧
    (currents 0 5 0 (numPoints 0 10 5)).getLast? =
      some ((0 : ℚ) + ((numPoints 0 10 5 - 1 : ℕ) : ℚ) * 5) ∧
    (0 : ℚ) + ((numPoints 0 10 5 - 1 : ℕ) : ℚ) * 5 ≤ 10 ∧
    ∀ (r1 r2 r3 mds r5 r6 : List Char) (rsLoop : List (List Char))
      (q1 q2 q3 q4 q5 q6 : List Char) (rest : List TRes),
      rsLoop.length = 10 * numPoints 0 10 5 →
      (run_current_sweep 0 10 5
          (initSt ((([r1, r2, r3, mds, r5, r6] ++ rsLoop ++
            [q1, q2, q3, q4, q5, q6]).map TRes.ok) ++ rest))).1 = Except.ok () ∧
      (run_current_sweep 0 10 5
          (initSt ((([r1, r2, r3, mds, r5, r6] ++ rsLoop ++
            [q1, q2, q3, q4, q5, q6]).map TRes.ok) ++ rest))).2.rows.map Prod.fst =
        currents 0 5 0 (numPoints 0 10 5) ∧
      (run_current_sweep 0 10 5
          (initSt ((([r1, r2, r3, mds, r5, r6] ++ rsLoop ++
            [q1, q2, q3, q4, q5, q6]).map TRes.ok) ++ rest))).2.rows.length =
        numPoints 0 10 5) :=
  ⟨by norm_num, by norm_num, claim_c1 0 10 5 (by norm_num) (by norm_num)⟩

end CLD

namespace CLD

/-- C10: the computed point count is always at least `1`; and with
`step_ma > 0` but `stop_ma < start_ma` the negative ratio's floor saturates
to `0` under the `as usize` cast, so `num_points = 1` and an error-free run
commands exactly one current — `start_ma` (sent as `start_ma / 1000` amps)
— and records exactly one summary row at that current. -/
theorem claim_c10 (startMa stopMa stepMa : ℚ) (h1 : 0 < stepMa)
    (h2 : stopMa < startMa) :
    (∀ a b c : ℚ, 1 ≤ numPoints a b c) ∧
    numPoints startMa stopMa stepMa = 1 ∧
    ∀ (r1 r2 r3 mds r5 r6 w1 w2 w3 w4 w5 w6 w7 w8 w9 w10
        q1 q2 q3 q4 q5 q6 : List Char) (rest : List TRes),
      (run_current_sweep startMa stopMa stepMa
          (initSt ((([r1, r2, r3, mds, r5, r6] ++
            [w1, w2, w3, w4, w5, w6, w7, w8, w9, w10] ++
            [q1, q2, q3, q4, q5, q6]).map TRes.ok) ++ rest))).1 = Except.ok () ∧
      (run_current_sweep startMa stopMa stepMa
          (initSt ((([r1, r2, r3, mds, r5, r6] ++
            [w1, w2, w3, w4, w5, w6, w7, w8, w9, w10] ++
            [q1, q2, q3, q4, q5, q6]).map TRes.ok) ++ rest))).2.rows.map Prod.fst =
        [startMa] ∧
      (run_current_sweep startMa stopMa stepMa
          (initSt ((([r1, r2, r3, mds, r5, r6] ++
            [w1, w2, w3, w4, w5, w6, w7, w8, w9, w10] ++
            [q1, q2, q3, q4, q5, q6]).map TRes.ok) ++ rest))).2.evs.filterMap
          evCurrent = [startMa / 1000] := by
  have hn := numPoints_sat startMa stopMa stepMa h1 h2
  refine ⟨numPoints_pos, hn, ?_⟩
  intro r1 r2 r3 mds r5 r6 w1 w2 w3 w4 w5 w6 w7 w8 w9 w10 q1 q2 q3 q4 q5 q6 rest
  have hlen : ([w1, w2, w3, w4, w5, w6, w7, w8, w9, w10] :
      List (List Char)).length = 10 * numPoints startMa stopMa stepMa := by
    rw [hn]; rfl
  obtain ⟨L, R, W, T, heq, hL, hoff, hmds, hcur, hrow⟩ :=
    run_ok startMa stopMa stepMa r1 r2 r3 mds r5 r6
      [w1, w2, w3, w4, w5, w6, w7, w8, w9, w10] q1 q2 q3 q4 q5 q6 rest hlen
  rw [heq]
  have hcl : currents startMa stepMa 0 (numPoints startMa stopMa stepMa) =
      [startMa] := by
    rw [hn]
    simp [currents]
  refine ⟨rfl, ?_, ?_⟩
  · rw [hrow, hcl]
  · rw [hcl] at hcur
    simp only [List.filterMap_append, hcur]
    simp [preEvs, postEvs, evCurrent]

/-- C10 witness: the saturating case instantiated at the plan
`start = 1, stop = 0, step = 1`. -/
theorem claim_c10_witness :
    (0 : ℚ) < 1 ∧ (0 : ℚ) < 1 ∧
    ((∀ a b c : ℚ, 1 ≤ numPoints a b c) ∧
    numPoints 1 0 1 = 1 ∧
    ∀ (r1 r2 r3 mds r5 r6 w1 w2 w3 w4 w5 w6 w7 w8 w9 w10
        q1 q2 q3 q4 q5 q6 : List Char) (rest : List TRes),
      (run_current_sweep 1 0 1
          (initSt ((([r1, r2, r3, mds, r5, r6] ++
            [w1, w2, w3, w4, w5, w6, w7, w8, w9, w10] ++
            [q1, q2, q3, q4, q5, q6]).map TRes.ok) ++ rest))).1 = Except.ok () ∧
      (run_current_sweep 1 0 1
          (initSt ((([r1, r2, r3, mds, r5, r6] ++
            [w1, w2, w3, w4, w5, w6, w7, w8, w9, w10] ++
            [q1, q2, q3, q4, q5, q6]).map TRes.ok) ++ rest))).2.rows.map Prod.fst =
        [(1 : ℚ)] ∧
      (run_current_sweep 1 0 1
          (initSt ((([r1, r2, r3, mds, r5, r6] ++
            [w1, w2, w3, w4, w5, w6, w7, w8, w9, w10] ++
            [q1, q2, q3, q4, q5, q6]).map TRes.ok) ++ rest))).2.evs.filterMap
          evCurrent = [(1 : ℚ) / 1000]) :=
  ⟨by norm_num, by norm_num, claim_c10 1 0 1 (by norm_num) (by norm_num)⟩

end CLD

namespace CLD

/-- The plan `start = 0, stop = 10, step = 5` has three points. -/
lemma numPoints_0_10_5 : numPoints 0 10 5 = 3 := by
  rw [numPoints, show ((10 : ℚ) - 0) / 5 = ((2 : ℤ) : ℚ) by norm_num,
    Int.floor_intCast]
  rfl

/-- C2: if a transport operation fails during setup or the sweep loop
(i.e. before the final source output-OFF, which is operation
`6 + 10 * num_points`), `run_current_sweep` returns that very error
immediately: the event log holds exactly the operations completed before
the failure (no further command is issued), and the source output-OFF
command was sent at most once — only the pre-loop one, so on this abort
path the final safety output-OFF is never sent and the source is not
guaranteed off. -/
theorem claim_c2 (startMa stopMa stepMa : ℚ) (rs : List (List Char)) (e : ℕ)
    (rest : List TRes)
    (hk : rs.length < 6 + 10 * numPoints startMa stopMa stepMa) :
    (run_current_sweep startMa stopMa stepMa
        (initSt (rs.map TRes.ok ++ TRes.err e :: rest))).1 = Except.error e ∧
    (run_current_sweep startMa stopMa stepMa
        (initSt (rs.map TRes.ok ++ TRes.err e :: rest))).2.evs.length = rs.length ∧
    (run_current_sweep startMa stopMa stepMa
        (initSt (rs.map TRes.ok ++ TRes.err e :: rest))).2.evs.count
        (Ev.write Dev.cld (Cmd.outputState false)) ≤ 1 ∧
    (run_current_sweep startMa stopMa stepMa
        (initSt (rs.map TRes.ok ++ TRes.err e :: rest))).2.evs.count
        (Ev.write Dev.cld (Cmd.outputState false)) =
      (if rs.length ≤ 4 then 0 else 1) := by
  obtain ⟨h1, h2, h3⟩ := run_err startMa stopMa stepMa rs e rest hk
  refine ⟨h1, h2, ?_, h3⟩
  rw [h3]
  split <;> omega

/-- C2 witness: the write of the first point's current command (operation
index 6) fails with error code 7 on the three-point plan
`start = 0, stop = 10, step = 5`; six events were logged and only the
pre-loop output-OFF appears. -/
theorem claim_c2_witness :
    (6 < 6 + 10 * numPoints 0 10 5) ∧
    ((run_current_sweep 0 10 5
        (initSt (([['1'], ['1'], ['1'], ['8'], ['1'], ['1']] :
          List (List Char)).map TRes.ok ++ TRes.err 7 :: []))).1 =
      Except.error 7 ∧
    (run_current_sweep 0 10 5
        (initSt (([['1'], ['1'], ['1'], ['8'], ['1'], ['1']] :
          List (List Char)).map TRes.ok ++ TRes.err 7 :: []))).2.evs.length = 6 ∧
    (run_current_sweep 0 10 5
        (initSt (([['1'], ['1'], ['1'], ['8'], ['1'], ['1']] :
          List (List Char)).map TRes.ok ++ TRes.err 7 :: []))).2.evs.count
        (Ev.write Dev.cld (Cmd.outputState false)) ≤ 1 ∧
    (run_current_sweep 0 10 5
        (initSt (([['1'], ['1'], ['1'], ['8'], ['1'], ['1']] :
          List (List Char)).map TRes.ok ++ TRes.err 7 :: []))).2.evs.count
        (Ev.write Dev.cld (Cmd.outputState false)) =
      (if ([['1'], ['1'], ['1'], ['8'], ['1'], ['1']] :
          List (List Char)).length ≤ 4 then 0 else 1)) := by
  have hk : (([['1'], ['1'], ['1'], ['8'], ['1'], ['1']] :
      List (List Char)).length) < 6 + 10 * numPoints 0 10 5 := by
    rw [numPoints_0_10_5]; decide
  refine ⟨by rw [numPoints_0_10_5]; decide, ?_⟩
  have h := claim_c2 0 10 5 [['1'], ['1'], ['1'], ['8'], ['1'], ['1']] 7 [] hk
  simpa using h

/-- C3: in every run that completes without a transport error the event log
splits into the six-event pre-loop segment, the loop segment, and the
post-loop segment, with the source output-OFF command occurring exactly
once before the loop, never inside it, and exactly once after it — one more
OFF after the loop than before it, for any point count. -/
theorem claim_c3 (startMa stopMa stepMa : ℚ)
    (r1 r2 r3 mds r5 r6 : List Char) (rsLoop : List (List Char))
    (q1 q2 q3 q4 q5 q6 : List Char) (rest : List TRes)
    (hlen : rsLoop.length = 10 * numPoints startMa stopMa stepMa) :
    (run_current_sweep startMa stopMa stepMa
        (initSt ((([r1, r2, r3, mds, r5, r6] ++ rsLoop ++
          [q1, q2, q3, q4, q5, q6]).map TRes.ok) ++ rest))).1 = Except.ok () ∧
    ∃ ev1 ev2 ev3 : List Ev,
      (run_current_sweep startMa stopMa stepMa
          (initSt ((([r1, r2, r3, mds, r5, r6] ++ rsLoop ++
            [q1, q2, q3, q4, q5, q6]).map TRes.ok) ++ rest))).2.evs =
        ev1 ++ ev2 ++ ev3 ∧
      ev1.length = 6 ∧
      ev2.length = 10 * numPoints startMa stopMa stepMa ∧
      ev1.count (Ev.write Dev.cld (Cmd.outputState false)) = 1 ∧
      ev2.count (Ev.write Dev.cld (Cmd.outputState false)) = 0 ∧
      ev3.count (Ev.write Dev.cld (Cmd.outputState false)) = 1 := by
  obtain ⟨L, R, W, T, heq, hL, hoff, hmds, hcur, hrow⟩ :=
    run_ok startMa stopMa stepMa r1 r2 r3 mds r5 r6 rsLoop q1 q2 q3 q4 q5 q6
      rest hlen
  rw [heq]
  refine ⟨rfl, preEvs mds, L, postEvs q4 q6, rfl, by simp [preEvs], hL,
    by simp [preEvs, List.count_cons], hoff,
    by simp [postEvs, List.count_cons]⟩

/-- C3 witness: the three-point plan `start = 0, stop = 10, step = 5` with
an all-successful environment. -/
theorem claim_c3_witness :
    ((List.replicate 30 ['1'] : List (List Char)).length =
      10 * numPoints 0 10 5) ∧
    ((run_current_sweep 0 10 5
        (initSt ((([['8'], ['8'], ['8'], ['8'], ['8'], ['8']] ++
          List.replicate 30 ['1'] ++
          [['8'], ['8'], ['8'], ['8'], ['8'], ['8']]).map TRes.ok) ++ []))).1 =
      Except.ok () ∧
    ∃ ev1 ev2 ev3 : List Ev,
      (run_current_sweep 0 10 5
          (initSt ((([['8'], ['8'], ['8'], ['8'], ['8'], ['8']] ++
            List.replicate 30 ['1'] ++
            [['8'], ['8'], ['8'], ['8'], ['8'], ['8']]).map TRes.ok) ++ []))).2.evs =
        ev1 ++ ev2 ++ ev3 ∧
      ev1.length = 6 ∧
      ev2.length = 10 * numPoints 0 10 5 ∧
      ev1.count (Ev.write Dev.cld (Cmd.outputState false)) = 1 ∧
      ev2.count (Ev.write Dev.cld (Cmd.outputState false)) = 0 ∧
      ev3.count (Ev.write Dev.cld (Cmd.outputState false)) = 1) := by
  have hlen : (List.replicate 30 ['1'] : List (List Char)).length =
      10 * numPoints 0 10 5 := by
    rw [numPoints_0_10_5]; decide
  exact ⟨hlen, claim_c3 0 10 5 ['8'] ['8'] ['8'] ['8'] ['8'] ['8']
    (List.replicate 30 ['1']) ['8'] ['8'] ['8'] ['8'] ['8'] ['8'] [] hlen⟩

end CLD

namespace CLD

/-- C7: in every error-free run the trace-length query `MDS?;` is issued
exactly once, as the third command before the sweep loop (and so not per
point), and when its response does not parse as an integer the trace point
count in use defaults to `800`. -/
theorem claim_c7 (startMa stopMa stepMa : ℚ)
    (r1 r2 r3 mds r5 r6 : List Char) (rsLoop : List (List Char))
    (q1 q2 q3 q4 q5 q6 : List Char) (rest : List TRes)
    (hlen : rsLoop.length = 10 * numPoints startMa stopMa stepMa)
    (hbad : parseUsize (trimChars mds) = none) :
    (run_current_sweep startMa stopMa stepMa
        (initSt ((([r1, r2, r3, mds, r5, r6] ++ rsLoop ++
          [q1, q2, q3, q4, q5, q6]).map TRes.ok) ++ rest))).1 = Except.ok () ∧
    (run_current_sweep startMa stopMa stepMa
        (initSt ((([r1, r2, r3, mds, r5, r6] ++ rsLoop ++
          [q1, q2, q3, q4, q5, q6]).map TRes.ok) ++ rest))).2.ntp = 800 ∧
    (run_current_sweep startMa stopMa stepMa
        (initSt ((([r1, r2, r3, mds, r5, r6] ++ rsLoop ++
          [q1, q2, q3, q4, q5, q6]).map TRes.ok) ++ rest))).2.evs.count
        (Ev.write Dev.osa Cmd.mdsQ) = 1 ∧
    (run_current_sweep startMa stopMa stepMa
        (initSt ((([r1, r2, r3, mds, r5, r6] ++ rsLoop ++
          [q1, q2, q3, q4, q5, q6]).map TRes.ok) ++ rest))).2.evs.take 3 =
      [Ev.write Dev.osa Cmd.sngls, Ev.write Dev.osa Cmd.centerSpan,
       Ev.write Dev.osa Cmd.mdsQ] := by
  obtain ⟨L, R, W, T, heq, hL, hoff, hmds, hcur, hrow⟩ :=
    run_ok startMa stopMa stepMa r1 r2 r3 mds r5 r6 rsLoop q1 q2 q3 q4 q5 q6
      rest hlen
  rw [heq]
  refine ⟨rfl, by simp [hbad], ?_, ?_⟩
  · simp [preEvs, postEvs, List.count_append, List.count_cons, hmds]
  · simp [preEvs, List.cons_append]

/-- C7 witness: a run of the three-point plan whose `MDS?` response `"x"`
is unparseable; the trace point count falls back to `800`. -/
theorem claim_c7_witness :
    ((List.replicate 30 ['1'] : List (List Char)).length =
      10 * numPoints 0 10 5) ∧
    parseUsize (trimChars ['x']) = none ∧
    ((run_current_sweep 0 10 5
        (initSt ((([['8'], ['8'], ['8'], ['x'], ['8'], ['8']] ++
          List.replicate 30 ['1'] ++
          [['8'], ['8'], ['8'], ['8'], ['8'], ['8']]).map TRes.ok) ++ []))).1 =
      Except.ok () ∧
    (run_current_sweep 0 10 5
        (initSt ((([['8'], ['8'], ['8'], ['x'], ['8'], ['8']] ++
          List.replicate 30 ['1'] ++
          [['8'], ['8'], ['8'], ['8'], ['8'], ['8']]).map TRes.ok) ++ []))).2.ntp =
      800 ∧
    (run_current_sweep 0 10 5
        (initSt ((([['8'], ['8'], ['8'], ['x'], ['8'], ['8']] ++
          List.replicate 30 ['1'] ++
          [['8'], ['8'], ['8'], ['8'], ['8'], ['8']]).map TRes.ok) ++ []))).2.evs.count
        (Ev.write Dev.osa Cmd.mdsQ) = 1 ∧
    (run_current_sweep 0 10 5
        (initSt ((([['8'], ['8'], ['8'], ['x'], ['8'], ['8']] ++
          List.replicate 30 ['1'] ++
          [['8'], ['8'], ['8'], ['8'], ['8'], ['8']]).map TRes.ok) ++ []))).2.evs.take 3 =
      [Ev.write Dev.osa Cmd.sngls, Ev.write Dev.osa Cmd.centerSpan,
       Ev.write Dev.osa Cmd.mdsQ]) := by
  have hlen : (List.replicate 30 ['1'] : List (List Char)).length =
      10 * numPoints 0 10 5 := by
    rw [numPoints_0_10_5]; decide
  have hbad : parseUsize (trimChars ['x']) = none := by decide
  exact ⟨hlen, hbad, claim_c7 0 10 5 ['8'] ['8'] ['8'] ['x'] ['8'] ['8']
    (List.replicate 30 ['1']) ['8'] ['8'] ['8'] ['8'] ['8'] ['8'] [] hlen hbad⟩

/-- C4: at any sweep point whose trimmed completion response is not exactly
`"1"`, the iteration still succeeds: the warning is printed, the
peak-search (`MKPK HI;`), peak-wavelength (`MKWL?;`) and peak-amplitude
(`MKA?;`) commands are all still issued, the point's summary row is
recorded, and its trace file is written. -/
theorem claim_c4 (startMa stepMa : ℚ) (ntp i : ℕ)
    (w1 w2 dn w3 w4 pw w5 pp w6 td : List Char) (rest : List TRes)
    (evs : List Ev) (rows : List (ℚ × ℚ × ℚ)) (warns : List (ℕ × List Char))
    (traces : List (ℚ × List (ℚ × ℚ))) (n0 : ℕ)
    (h : trimChars dn ≠ ['1']) :
    (sweepPoint startMa stepMa ntp i
        ⟨TRes.ok w1 :: TRes.ok w2 :: TRes.ok dn :: TRes.ok w3 :: TRes.ok w4 ::
          TRes.ok pw :: TRes.ok w5 :: TRes.ok pp :: TRes.ok w6 :: TRes.ok td :: rest,
         evs, rows, warns, traces, n0⟩).1 = Except.ok () ∧
    (sweepPoint startMa stepMa ntp i
        ⟨TRes.ok w1 :: TRes.ok w2 :: TRes.ok dn :: TRes.ok w3 :: TRes.ok w4 ::
          TRes.ok pw :: TRes.ok w5 :: TRes.ok pp :: TRes.ok w6 :: TRes.ok td :: rest,
         evs, rows, warns, traces, n0⟩).2.warns = warns ++ [(i, trimChars dn)] ∧
    (sweepPoint startMa stepMa ntp i
        ⟨TRes.ok w1 :: TRes.ok w2 :: TRes.ok dn :: TRes.ok w3 :: TRes.ok w4 ::
          TRes.ok pw :: TRes.ok w5 :: TRes.ok pp :: TRes.ok w6 :: TRes.ok td :: rest,
         evs, rows, warns, traces, n0⟩).2.rows =
      rows ++ [(startMa + (i : ℚ) * stepMa, parse_scalar pw 0 (10 ^ 9),
        parse_scalar pp (-100) 1)] ∧
    Ev.write Dev.osa Cmd.mkpkHi ∈ (sweepPoint startMa stepMa ntp i
        ⟨TRes.ok w1 :: TRes.ok w2 :: TRes.ok dn :: TRes.ok w3 :: TRes.ok w4 ::
          TRes.ok pw :: TRes.ok w5 :: TRes.ok pp :: TRes.ok w6 :: TRes.ok td :: rest,
         evs, rows, warns, traces, n0⟩).2.evs ∧
    Ev.write Dev.osa Cmd.mkwlQ ∈ (sweepPoint startMa stepMa ntp i
        ⟨TRes.ok w1 :: TRes.ok w2 :: TRes.ok dn :: TRes.ok w3 :: TRes.ok w4 ::
          TRes.ok pw :: TRes.ok w5 :: TRes.ok pp :: TRes.ok w6 :: TRes.ok td :: rest,
         evs, rows, warns, traces, n0⟩).2.evs ∧
    Ev.write Dev.osa Cmd.mkaQ ∈ (sweepPoint startMa stepMa ntp i
        ⟨TRes.ok w1 :: TRes.ok w2 :: TRes.ok dn :: TRes.ok w3 :: TRes.ok w4 ::
          TRes.ok pw :: TRes.ok w5 :: TRes.ok pp :: TRes.ok w6 :: TRes.ok td :: rest,
         evs, rows, warns, traces, n0⟩).2.evs ∧
    (sweepPoint startMa stepMa ntp i
        ⟨TRes.ok w1 :: TRes.ok w2 :: TRes.ok dn :: TRes.ok w3 :: TRes.ok w4 ::
          TRes.ok pw :: TRes.ok w5 :: TRes.ok pp :: TRes.ok w6 :: TRes.ok td :: rest,
         evs, rows, warns, traces, n0⟩).2.traces =
      traces ++ [(startMa + (i : ℚ) * stepMa,
        traceRows startWl ((stopWl - startWl) / ((ntp : ℚ) - 1)) ntp 0
          (splitOn ',' (trimChars td)))] := by
  rw [sweepPoint_ok]
  refine ⟨rfl, ?_, rfl, ?_, ?_, ?_, rfl⟩
  · simp [if_neg h]
  · simp [pointEvs]
  · simp [pointEvs]
  · simp [pointEvs]

/-- C4 witness: the completion response is `"0"`; the iteration warns and
still records the row and issues the three peak commands. -/
theorem claim_c4_witness :
    trimChars ['0'] ≠ ['1'] ∧
    ((sweepPoint 0 5 800 0
        ⟨TRes.ok ['1'] :: TRes.ok ['1'] :: TRes.ok ['0'] :: TRes.ok ['1'] ::
          TRes.ok ['1'] :: TRes.ok ['2'] :: TRes.ok ['1'] :: TRes.ok ['3'] ::
          TRes.ok ['1'] :: TRes.ok ['4'] :: [],
         [], [], [], [], 0⟩).1 = Except.ok () ∧
    (sweepPoint 0 5 800 0
        ⟨TRes.ok ['1'] :: TRes.ok ['1'] :: TRes.ok ['0'] :: TRes.ok ['1'] ::
          TRes.ok ['1'] :: TRes.ok ['2'] :: TRes.ok ['1'] :: TRes.ok ['3'] ::
          TRes.ok ['1'] :: TRes.ok ['4'] :: [],
         [], [], [], [], 0⟩).2.warns = [] ++ [(0, trimChars ['0'])] ∧
    (sweepPoint 0 5 800 0
        ⟨TRes.ok ['1'] :: TRes.ok ['1'] :: TRes.ok ['0'] :: TRes.ok ['1'] ::
          TRes.ok ['1'] :: TRes.ok ['2'] :: TRes.ok ['1'] :: TRes.ok ['3'] ::
          TRes.ok ['1'] :: TRes.ok ['4'] :: [],
         [], [], [], [], 0⟩).2.rows =
      [] ++ [((0 : ℚ) + (0 : ℕ) * 5, parse_scalar ['2'] 0 (10 ^ 9),
        parse_scalar ['3'] (-100) 1)] ∧
    Ev.write Dev.osa Cmd.mkpkHi ∈ (sweepPoint 0 5 800 0
        ⟨TRes.ok ['1'] :: TRes.ok ['1'] :: TRes.ok ['0'] :: TRes.ok ['1'] ::
          TRes.ok ['1'] :: TRes.ok ['2'] :: TRes.ok ['1'] :: TRes.ok ['3'] ::
          TRes.ok ['1'] :: TRes.ok ['4'] :: [],
         [], [], [], [], 0⟩).2.evs ∧
    Ev.write Dev.osa Cmd.mkwlQ ∈ (sweepPoint 0 5 800 0
        ⟨TRes.ok ['1'] :: TRes.ok ['1'] :: TRes.ok ['0'] :: TRes.ok ['1'] ::
          TRes.ok ['1'] :: TRes.ok ['2'] :: TRes.ok ['1'] :: TRes.ok ['3'] ::
          TRes.ok ['1'] :: TRes.ok ['4'] :: [],
         [], [], [], [], 0⟩).2.evs ∧
    Ev.write Dev.osa Cmd.mkaQ ∈ (sweepPoint 0 5 800 0
        ⟨TRes.ok ['1'] :: TRes.ok ['1'] :: TRes.ok ['0'] :: TRes.ok ['1'] ::
          TRes.ok ['1'] :: TRes.ok ['2'] :: TRes.ok ['1'] :: TRes.ok ['3'] ::
          TRes.ok ['1'] :: TRes.ok ['4'] :: [],
         [], [], [], [], 0⟩).2.evs ∧
    (sweepPoint 0 5 800 0
        ⟨TRes.ok ['1'] :: TRes.ok ['1'] :: TRes.ok ['0'] :: TRes.ok ['1'] ::
          TRes.ok ['1'] :: TRes.ok ['2'] :: TRes.ok ['1'] :: TRes.ok ['3'] ::
          TRes.ok ['1'] :: TRes.ok ['4'] :: [],
         [], [], [], [], 0⟩).2.traces =
      [] ++ [((0 : ℚ) + (0 : ℕ) * 5,
        traceRows startWl ((stopWl - startWl) / ((800 : ℚ) - 1)) 800 0
          (splitOn ',' (trimChars ['4'])))]) := by
  have h : trimChars ['0'] ≠ ['1'] := by decide
  exact ⟨h, claim_c4 0 5 800 0 ['1'] ['1'] ['0'] ['1'] ['1'] ['2'] ['1'] ['3']
    ['1'] ['4'] [] [] [] [] [] 0 h⟩

end CLD

namespace CLD

lemma traceRows_length (sw w : ℚ) (ntp : ℕ) :
    ∀ (vals : List (List Char)) (j : ℕ),
      (traceRows sw w ntp j vals).length = min vals.length (ntp - j) := by
  intro vals
  induction vals with
  | nil => intro j; simp [traceRows]
  | cons v vs ih =>
    intro j
    rw [traceRows]
    by_cases hj : j < ntp
    · rw [if_pos hj]
      simp only [List.length_cons, ih (j + 1)]
      omega
    · rw [if_neg hj]
      simp only [List.length_cons, ih (j + 1)]
      omega

lemma mkVal_int (ds : List Char) : mkVal false ds [] 0 = (digitsVal ds : ℚ) := by
  rw [mkVal]
  simp

/-- C8: the trace-writing loop maps exactly the first
`min(number of raw values, num_trace_points)` fields onto the wavelength
axis: excess raw values are dropped and a short response leaves the
remaining indices unwritten.  Concretely, with `num_trace_points = 3`,
five raw values produce exactly the three rows at indices 0, 1, 2, and a
single raw value produces only the row at index 0. -/
theorem claim_c8 :
    (∀ (sw w : ℚ) (ntp : ℕ) (vals : List (List Char)),
      (traceRows sw w ntp 0 vals).length = min vals.length ntp) ∧
    traceRows 970 10 3 0 [['1'], ['2'], ['3'], ['4'], ['5']] =
      [(970, 1), (980, 2), (990, 3)] ∧
    traceRows 970 10 3 0 [['7']] = [(970, 7)] := by
  refine ⟨?_, ?_, ?_⟩
  · intro sw w ntp vals
    rw [traceRows_length]
    omega
  · have e1 : (parseF64 ['1']).getD (-100 : ℚ) = 1 := by
      rw [show parseF64 ['1'] = some (mkVal false ['1'] [] 0) from rfl,
        Option.getD_some, mkVal_int, show digitsVal ['1'] = 1 from by decide]
      norm_num
    have e2 : (parseF64 ['2']).getD (-100 : ℚ) = 2 := by
      rw [show parseF64 ['2'] = some (mkVal false ['2'] [] 0) from rfl,
        Option.getD_some, mkVal_int, show digitsVal ['2'] = 2 from by decide]
      norm_num
    have e3 : (parseF64 ['3']).getD (-100 : ℚ) = 3 := by
      rw [show parseF64 ['3'] = some (mkVal false ['3'] [] 0) from rfl,
        Option.getD_some, mkVal_int, show digitsVal ['3'] = 3 from by decide]
      norm_num
    rw [show traceRows 970 10 3 0 [['1'], ['2'], ['3'], ['4'], ['5']] =
      [((970 : ℚ) + ((0 : ℕ) : ℚ) * 10, (parseF64 ['1']).getD (-100)),
       ((970 : ℚ) + ((1 : ℕ) : ℚ) * 10, (parseF64 ['2']).getD (-100)),
       ((970 : ℚ) + ((2 : ℕ) : ℚ) * 10, (parseF64 ['3']).getD (-100))] from rfl,
      e1, e2, e3]
    norm_num
  · have e7 : (parseF64 ['7']).getD (-100 : ℚ) = 7 := by
      rw [show parseF64 ['7'] = some (mkVal false ['7'] [] 0) from rfl,
        Option.getD_some, mkVal_int, show digitsVal ['7'] = 7 from by decide]
      norm_num
    rw [show traceRows 970 10 3 0 [['7']] =
      [((970 : ℚ) + ((0 : ℕ) : ℚ) * 10, (parseF64 ['7']).getD (-100))] from rfl, e7]
    norm_num

/-- C6: the trace decode splits the trimmed line on commas and parses each
field independently with per-field fallback `-100.0` (field `i` of the
output is exactly the parse of field `i` of the split, so one malformed
field never discards the rest of the line); on `"1.0,bad,3.0"` it yields
`[1.0, -100.0, 3.0]`. -/
theorem claim_c6 :
    parse_trace ("1.0,bad,3.0".data) = [1, -100, 3] ∧
    ∀ (line : List Char) (i : ℕ),
      (parse_trace line).length = (splitOn ',' (trimChars line)).length ∧
      (parse_trace line)[i]? =
        ((splitOn ',' (trimChars line))[i]?).map
          (fun v => (parseF64 v).getD (-100)) := by
  constructor
  · have e1 : (parseF64 "1.0".data).getD (-100 : ℚ) = 1 := by
      rw [show parseF64 "1.0".data = some (mkVal false ['1'] ['0'] 0) from rfl]
      rw [Option.getD_some, mkVal,
        show digitsVal (['1'] ++ ['0']) = 10 from by decide]
      norm_num
    have e2 : (parseF64 "bad".data).getD (-100 : ℚ) = -100 := by
      rw [show parseF64 "bad".data = none from rfl]
      rfl
    have e3 : (parseF64 "3.0".data).getD (-100 : ℚ) = 3 := by
      rw [show parseF64 "3.0".data = some (mkVal false ['3'] ['0'] 0) from rfl]
      rw [Option.getD_some, mkVal,
        show digitsVal (['3'] ++ ['0']) = 30 from by decide]
      norm_num
    rw [show parse_trace ("1.0,bad,3.0".data) =
      [(parseF64 "1.0".data).getD (-100), (parseF64 "bad".data).getD (-100),
       (parseF64 "3.0".data).getD (-100)] from rfl, e1, e2, e3]
  · intro line i
    constructor
    · simp [parse_trace]
    · simp [parse_trace]

end CLD

namespace CLD

/-! ## The power-meter driver (`MPM210H`, `mpm210h.rs`)

Commands written to the socket transport are modelled structurally:
`dwav m p wl` = `"DWAV {m},{p},{wl:.3}"`, `wmod mode` = `"WMOD {mode}"`,
`avg t` = `"AVG {t:.2}"`.  The fixed 10 ms pacing delay after each command
has no observable effect in the model. -/
inductive MpmCmd
  | dwav (module port : ℕ) (wl : ℚ)
  | wmod (mode : List Char)
  | avg (t : ℚ)
deriving DecidableEq

/-- `io::Error` of kind `InvalidInput` with its message. -/
inductive MpmErr
  | invalidInput (msg : List Char)
deriving DecidableEq

/-- Driver state: configured module and port (`u8`, modelled as `ℕ`) and
the commands sent over the socket so far. -/
structure MPM210H where
  module : ℕ
  port : ℕ
  sent : List MpmCmd
deriving DecidableEq

/-- `valid_modes` at `mpm210h.rs` line 87. -/
def valid_modes : List (List Char) :=
  ["CONST1".data, "CONST2".data, "SWEEP1".data, "SWEEP2".data, "FREERUN".data]

namespace MPM210H

/-- `MPM210H::write_command`: send one command over the socket. -/
def write_command (m : MPM210H) (c : MpmCmd) : MPM210H :=
  { m with sent := m.sent ++ [c] }

/-- `MPM210H::set_module` (`mpm210h.rs` lines 48-57): reject module
numbers above 4 before any transmission. -/
def set_module (m : MPM210H) (module : ℕ) : Except MpmErr Unit × MPM210H :=
  if module > 4 then
    (Except.error (MpmErr.invalidInput "Module number must be between 0 and 4".data), m)
  else (Except.ok (), { m with module := module })

/-- `MPM210H::set_port` (`mpm210h.rs` lines 60-69): reject port numbers
outside 1-4 before any transmission. -/
def set_port (m : MPM210H) (port : ℕ) : Except MpmErr Unit × MPM210H :=
  if port < 1 ∨ port > 4 then
    (Except.error (MpmErr.invalidInput "Port number must be between 1 and 4".data), m)
  else (Except.ok (), { m with port := port })

/-- `MPM210H::set_wavelength` (`mpm210h.rs` lines 72-83): reject
wavelengths outside 1250-1630 nm before any transmission, otherwise send
the `DWAV` command. -/
def set_wavelength (m : MPM210H) (wl : ℚ) : Except MpmErr Unit × MPM210H :=
  if wl < 1250 ∨ wl > 1630 then
    (Except.error (MpmErr.invalidInput "Wavelength must be between 1250 and 1630 nm".data), m)
  else (Except.ok (), write_command m (MpmCmd.dwav m.module m.port wl))

/-- `MPM210H::set_measurement_mode` (`mpm210h.rs` lines 86-96): reject
modes outside the fixed set before any transmission, otherwise send the
`WMOD` command. -/
def set_measurement_mode (m : MPM210H) (mode : List Char) :
    Except MpmErr Unit × MPM210H :=
  if mode ∉ valid_modes then
    (Except.error (MpmErr.invalidInput ("Invalid measurement mode: ".data ++ mode)), m)
  else (Except.ok (), write_command m (MpmCmd.wmod mode))

/-- `MPM210H::set_averaging_time` (`mpm210h.rs` lines 99-108): reject
averaging times outside 0.01-10000 ms before any transmission, otherwise
send the `AVG` command. -/
def set_averaging_time (m : MPM210H) (t : ℚ) : Except MpmErr Unit × MPM210H :=
  if t < 0.01 ∨ t > 10000 then
    (Except.error (MpmErr.invalidInput "Averaging time must be between 0.01 and 10000 ms".data), m)
  else (Except.ok (), write_command m (MpmCmd.avg t))

end MPM210H

/-- C9: every power-meter setter validates its argument before
transmission; on an out-of-range or non-member argument it returns an
invalid-input error and leaves the driver state — in particular the list
of commands sent over the socket — completely unchanged. -/
theorem claim_c9 (m : MPM210H) (module port : ℕ) (wl t : ℚ) (mode : List Char)
    (h1 : module > 4) (h2 : port < 1 ∨ port > 4)
    (h3 : wl < 1250 ∨ wl > 1630) (h4 : mode ∉ valid_modes)
    (h5 : t < 0.01 ∨ t > 10000) :
    m.set_module module =
      (Except.error (MpmErr.invalidInput "Module number must be between 0 and 4".data), m) ∧
    m.set_port port =
      (Except.error (MpmErr.invalidInput "Port number must be between 1 and 4".data), m) ∧
    m.set_wavelength wl =
      (Except.error (MpmErr.invalidInput "Wavelength must be between 1250 and 1630 nm".data), m) ∧
    m.set_measurement_mode mode =
      (Except.error (MpmErr.invalidInput ("Invalid measurement mode: ".data ++ mode)), m) ∧
    m.set_averaging_time t =
      (Except.error (MpmErr.invalidInput "Averaging time must be between 0.01 and 10000 ms".data), m) := by
  refine ⟨?_, ?_, ?_, ?_, ?_⟩
  · rw [MPM210H.set_module, if_pos h1]
  · rw [MPM210H.set_port, if_pos h2]
  · rw [MPM210H.set_wavelength, if_pos h3]
  · rw [MPM210H.set_measurement_mode, if_pos h4]
  · rw [MPM210H.set_averaging_time, if_pos h5]

/-- C9 witness: module 5, port 0, wavelength 100 nm, mode `"BAD"` and
averaging time 0 ms are each rejected without touching the transport. -/
theorem claim_c9_witness :
    ((5 : ℕ) > 4 ∧ ((0 : ℕ) < 1 ∨ (0 : ℕ) > 4) ∧
      ((100 : ℚ) < 1250 ∨ (100 : ℚ) > 1630) ∧ "BAD".data ∉ valid_modes ∧
      ((0 : ℚ) < 0.01 ∨ (0 : ℚ) > 10000)) ∧
    ((MPM210H.mk 0 1 []).set_module 5 =
      (Except.error (MpmErr.invalidInput "Module number must be between 0 and 4".data),
        MPM210H.mk 0 1 []) ∧
    (MPM210H.mk 0 1 []).set_port 0 =
      (Except.error (MpmErr.invalidInput "Port number must be between 1 and 4".data),
        MPM210H.mk 0 1 []) ∧
    (MPM210H.mk 0 1 []).set_wavelength 100 =
      (Except.error (MpmErr.invalidInput "Wavelength must be between 1250 and 1630 nm".data),
        MPM210H.mk 0 1 []) ∧
    (MPM210H.mk 0 1 []).set_measurement_mode "BAD".data =
      (Except.error (MpmErr.invalidInput ("Invalid measurement mode: ".data ++ "BAD".data)),
        MPM210H.mk 0 1 []) ∧
    (MPM210H.mk 0 1 []).set_averaging_time 0 =
      (Except.error (MpmErr.invalidInput "Averaging time must be between 0.01 and 10000 ms".data),
        MPM210H.mk 0 1 [])) := by
  have h1 : (5 : ℕ) > 4 := by decide
  have h2 : (0 : ℕ) < 1 ∨ (0 : ℕ) > 4 := Or.inl (by decide)
  have h3 : (100 : ℚ) < 1250 ∨ (100 : ℚ) > 1630 := Or.inl (by norm_num)
  have h4 : "BAD".data ∉ valid_modes := by decide
  have h5 : (0 : ℚ) < 0.01 ∨ (0 : ℚ) > 10000 := Or.inl (by norm_num)
  exact ⟨⟨h1, h2, h3, h4, h5⟩,
    claim_c9 (MPM210H.mk 0 1 []) 5 0 100 0 "BAD".data h1 h2 h3 h4 h5⟩

end CLD

namespace CLD

/-! ## Well-formed floating-point literals for the C5 round trip

A well-formed line is described by its sign, integral digits, fraction
digits and optional exponent (sign and digits); `renderLit` prints it and
`litVal` is its usual positional value. -/

/-- Digits (each `< 10`) printed as characters. -/
def digitChars (ds : List ℕ) : List Char := ds.map Nat.digitChar

/-- Positional value of a digit list. -/
def natVal (ds : List ℕ) : ℕ := ds.foldl (fun a d => 10 * a + d) 0

/-- Print the optional exponent part `e[-]digits`. -/
def renderExp : Option (Bool × List ℕ) → List Char
  | none => []
  | some (en, eds) => 'e' :: ((if en then ['-'] else []) ++ digitChars eds)

/-- Print a floating-point literal `[-]digits.digits[e[-]digits]`. -/
def renderLit (neg : Bool) (ds1 ds2 : List ℕ) (ex : Option (Bool × List ℕ)) :
    List Char :=
  (if neg then ['-'] else []) ++ digitChars ds1 ++
    '.' :: (digitChars ds2 ++ renderExp ex)

/-- Value of the optional exponent. -/
def expVal : Option (Bool × List ℕ) → ℤ
  | none => 0
  | some (en, eds) => if en then -(natVal eds : ℤ) else (natVal eds : ℤ)

/-- The usual value of the rendered literal. -/
def litVal (neg : Bool) (ds1 ds2 : List ℕ) (ex : Option (Bool × List ℕ)) : ℚ :=
  (if neg then -1 else 1) *
    ((natVal ds1 : ℚ) + (natVal ds2 : ℚ) / 10 ^ ds2.length) * 10 ^ expVal ex

lemma digitChar_spec :
    ∀ d : ℕ, d < 10 → (Nat.digitChar d).isDigit = true ∧
      (Nat.digitChar d).toNat - 48 = d ∧
      Nat.digitChar d ≠ '-' ∧ Nat.digitChar d ≠ '+' := by decide

lemma splitSign_nonsign (c : Char) (h1 : c ≠ '-') (h2 : c ≠ '+')
    (cs : List Char) : splitSign (c :: cs) = (false, c :: cs) := by
  simp only [splitSign, if_neg h1, if_neg h2]

lemma dropWhile_of_takeWhile_nil {α : Type} (p : α → Bool) (l : List α)
    (h : l.takeWhile p = []) : l.dropWhile p = l := by
  cases l with
  | nil => rfl
  | cons c t =>
    by_cases hp : p c
    · simp [List.takeWhile_cons, hp] at h
    · simp [List.dropWhile_cons, hp]

lemma span_digits (ds : List ℕ) (hds : ∀ d ∈ ds, d < 10) (tl : List Char)
    (htl : tl.takeWhile Char.isDigit = []) :
    (digitChars ds ++ tl).takeWhile Char.isDigit = digitChars ds ∧
    (digitChars ds ++ tl).dropWhile Char.isDigit = tl := by
  induction ds with
  | nil =>
    simp only [digitChars, List.map_nil, List.nil_append]
    exact ⟨htl, dropWhile_of_takeWhile_nil _ _ htl⟩
  | cons d ds ih =>
    have hd := (digitChar_spec d (hds d (by simp))).1
    have ihds : ∀ x ∈ ds, x < 10 := fun x hx => hds x (by simp [hx])
    obtain ⟨ih1, ih2⟩ := ih ihds
    constructor
    · simp only [digitChars, List.map_cons, List.cons_append,
        List.takeWhile_cons, hd]
      simpa [digitChars] using ih1
    · simp only [digitChars, List.map_cons, List.cons_append,
        List.dropWhile_cons, hd]
      simpa [digitChars] using ih2

lemma digitsVal_digitChars_aux :
    ∀ (ds : List ℕ) (a : ℕ), (∀ d ∈ ds, d < 10) →
      (digitChars ds).foldl (fun n c => 10 * n + (c.toNat - 48)) a =
        ds.foldl (fun n d => 10 * n + d) a := by
  intro ds
  induction ds with
  | nil => intro a _; rfl
  | cons d ds ih =>
    intro a hds
    have hd := (digitChar_spec d (hds d (by simp))).2.1
    simp only [digitChars, List.map_cons, List.foldl_cons, hd]
    exact ih (10 * a + d) (fun x hx => hds x (by simp [hx]))

lemma digitsVal_digitChars (ds : List ℕ) (hds : ∀ d ∈ ds, d < 10) :
    digitsVal (digitChars ds) = natVal ds :=
  digitsVal_digitChars_aux ds 0 hds

lemma natVal_shift :
    ∀ (ds : List ℕ) (a : ℕ),
      ds.foldl (fun n d => 10 * n + d) a =
        a * 10 ^ ds.length + ds.foldl (fun n d => 10 * n + d) 0 := by
  intro ds
  induction ds with
  | nil => intro a; simp
  | cons d ds ih =>
    intro a
    simp only [List.foldl_cons, List.length_cons]
    rw [ih (10 * a + d), ih (10 * 0 + d)]
    ring

lemma natVal_append (ds1 ds2 : List ℕ) :
    natVal (ds1 ++ ds2) = natVal ds1 * 10 ^ ds2.length + natVal ds2 := by
  rw [natVal, List.foldl_append, natVal_shift ds2 (List.foldl _ 0 ds1)]
  rfl

lemma mantissa_val (ds1 ds2 : List ℕ) (hd1 : ∀ d ∈ ds1, d < 10)
    (hd2 : ∀ d ∈ ds2, d < 10) :
    (digitsVal (digitChars ds1 ++ digitChars ds2) : ℚ) /
        10 ^ (digitChars ds2).length =
      (natVal ds1 : ℚ) + (natVal ds2 : ℚ) / 10 ^ ds2.length := by
  rw [show digitChars ds1 ++ digitChars ds2 = digitChars (ds1 ++ ds2) from
    (List.map_append _ _ _).symm]
  have hall : ∀ d ∈ ds1 ++ ds2, d < 10 := by
    intro d hd
    rcases List.mem_append.mp hd with h | h
    · exact hd1 d h
    · exact hd2 d h
  rw [digitsVal_digitChars _ hall, natVal_append]
  simp only [digitChars, List.length_map]
  have h10 : ((10 : ℚ) ^ ds2.length) ≠ 0 := by positivity
  push_cast
  field_simp

end CLD

namespace CLD

lemma splitSign_render (neg : Bool) (ds1 ds2 : List ℕ)
    (ex : Option (Bool × List ℕ)) (hd1 : ∀ d ∈ ds1, d < 10) :
    splitSign (renderLit neg ds1 ds2 ex) =
      (neg, digitChars ds1 ++ '.' :: (digitChars ds2 ++ renderExp ex)) := by
  cases neg with
  | true =>
    simp only [renderLit, if_pos rfl, List.cons_append, List.singleton_append]
    simp [splitSign]
  | false =>
    simp only [renderLit, if_neg Bool.false_ne_true, List.nil_append]
    cases ds1 with
    | nil =>
      simp only [digitChars, List.map_nil, List.nil_append]
      exact splitSign_nonsign '.' (by decide) (by decide) _
    | cons d ds1 =>
      have hd := digitChar_spec d (hd1 d (by simp))
      simp only [digitChars, List.map_cons, List.cons_append]
      exact splitSign_nonsign _ hd.2.2.1 hd.2.2.2 _

lemma takeWhile_dot (tl : List Char) :
    (('.' :: tl).takeWhile Char.isDigit) = [] := by
  simp [List.takeWhile_cons, show Char.isDigit '.' = false from rfl]

lemma takeWhile_renderExp (ex : Option (Bool × List ℕ)) :
    (renderExp ex).takeWhile Char.isDigit = [] := by
  rcases ex with _ | ⟨en, eds⟩
  · rfl
  · simp [renderExp, List.takeWhile_cons, show Char.isDigit 'e' = false from rfl]

/-- Round trip: `parseF64` recovers the value of every rendered
well-formed floating-point literal. -/
lemma parseF64_render (neg : Bool) (ds1 ds2 : List ℕ)
    (ex : Option (Bool × List ℕ))
    (hd1 : ∀ d ∈ ds1, d < 10) (hd2 : ∀ d ∈ ds2, d < 10)
    (hnz : ¬(ds1 = [] ∧ ds2 = []))
    (hex : ∀ en eds, ex = some (en, eds) → eds ≠ [] ∧ ∀ d ∈ eds, d < 10) :
    parseF64 (renderLit neg ds1 ds2 ex) = some (litVal neg ds1 ds2 ex) := by
  rcases ex with _ | ⟨en, eds⟩
  · have hsign := splitSign_render neg ds1 ds2 none hd1
    obtain ⟨htake1, hdrop1⟩ :=
      span_digits ds1 hd1 ('.' :: (digitChars ds2 ++ renderExp none))
        (takeWhile_dot _)
    obtain ⟨htake2, hdrop2⟩ :=
      span_digits ds2 hd2 (renderExp none) (takeWhile_renderExp none)
    have hnz1 : ¬(digitChars ds1 = [] ∧ digitChars ds2 = []) := by
      simpa [digitChars] using hnz
    simp only [renderExp, List.append_nil] at htake2 hdrop2
    simp only [parseF64, hsign, htake1, hdrop1]
    simp only [renderExp, List.append_nil, htake2, hdrop2, if_true]
    simp only [if_neg hnz1]
    rw [mkVal, mantissa_val ds1 ds2 hd1 hd2]
    simp [litVal, expVal]
  · obtain ⟨hene, hed⟩ := hex en eds rfl
    have hsign := splitSign_render neg ds1 ds2 (some (en, eds)) hd1
    obtain ⟨htake1, hdrop1⟩ :=
      span_digits ds1 hd1
        ('.' :: (digitChars ds2 ++ renderExp (some (en, eds))))
        (takeWhile_dot _)
    obtain ⟨htake2, hdrop2⟩ :=
      span_digits ds2 hd2 (renderExp (some (en, eds)))
        (takeWhile_renderExp (some (en, eds)))
    have hnz1 : ¬(digitChars ds1 = [] ∧ digitChars ds2 = []) := by
      simpa [digitChars] using hnz
    have hspe : splitSign ((if en then ['-'] else []) ++ digitChars eds) =
        (en, digitChars eds) := by
      cases en with
      | true => simp [splitSign]
      | false =>
        simp only [if_neg Bool.false_ne_true, List.nil_append]
        rcases eds with _ | ⟨e0, eds2⟩
        · exact absurd rfl hene
        · have he := digitChar_spec e0 (hed e0 (by simp))
          simp only [digitChars, List.map_cons]
          exact splitSign_nonsign _ he.2.2.1 he.2.2.2 _
    obtain ⟨htake3, hdrop3⟩ := span_digits eds hed [] rfl
    rw [List.append_nil] at htake3 hdrop3
    have hedsne : digitChars eds ≠ [] := by
      simpa [digitChars] using hene
    have hguard : ¬(digitChars eds = [] ∨ ([] : List Char) ≠ []) := by
      simp [hedsne]
    simp only [parseF64, hsign, htake1, hdrop1]
    simp only [htake2, hdrop2, if_true]
    simp only [if_neg hnz1]
    simp only [renderExp]
    simp only [true_or, if_true]
    simp only [hspe, htake3, hdrop3]
    simp only [if_neg hguard]
    rw [mkVal, mantissa_val ds1 ds2 hd1 hd2, digitsVal_digitChars eds hed]
    simp only [litVal, expVal]

end CLD

namespace CLD

/-- C5: the scalar decode trims the line, parses it as a floating-point
literal and multiplies by the scale factor, returning the scaled value for
every well-formed line (round trip over rendered literals); on any parse
failure it returns exactly the configured fallback — `0.0` for the peak
wavelength (fallback `0` scaled by `1e9`) and `-100.0` for the peak power
(fallback `-100`, scale `1`) — and never raises to the caller (it is a
total function into `ℚ`). -/
theorem claim_c5 (neg : Bool) (ds1 ds2 : List ℕ) (ex : Option (Bool × List ℕ))
    (lineGood lineBad : List Char) (fb scale : ℚ)
    (hd1 : ∀ d ∈ ds1, d < 10) (hd2 : ∀ d ∈ ds2, d < 10)
    (hnz : ¬(ds1 = [] ∧ ds2 = []))
    (hex : ∀ en eds, ex = some (en, eds) → eds ≠ [] ∧ ∀ d ∈ eds, d < 10)
    (hg : trimChars lineGood = renderLit neg ds1 ds2 ex)
    (hb : parseF64 (trimChars lineBad) = none) :
    parse_scalar lineGood fb scale = litVal neg ds1 ds2 ex * scale ∧
    parse_scalar lineBad 0 (10 ^ 9) = 0 ∧
    parse_scalar lineBad fb 1 = fb := by
  refine ⟨?_, ?_, ?_⟩
  · rw [parse_scalar, hg, parseF64_render neg ds1 ds2 ex hd1 hd2 hnz hex,
      Option.getD_some]
  · rw [parse_scalar, hb]
    simp
  · rw [parse_scalar, hb]
    simp

/-- C5 witness: the analyzer-style wavelength line `"9.8e-7\n"` round
trips to `9.8e-7` (times the scale), and the malformed line `" bad "`
takes the configured fallbacks under both decode configurations. -/
theorem claim_c5_witness :
    trimChars ("9.8e-7\n".data) = renderLit false [9] [8] (some (true, [7])) ∧
    parseF64 (trimChars (" bad ".data)) = none ∧
    (parse_scalar ("9.8e-7\n".data) (-100) (10 ^ 9) =
      litVal false [9] [8] (some (true, [7])) * 10 ^ 9 ∧
    parse_scalar (" bad ".data) 0 (10 ^ 9) = 0 ∧
    parse_scalar (" bad ".data) (-100) 1 = -100) := by
  have hg : trimChars ("9.8e-7\n".data) =
      renderLit false [9] [8] (some (true, [7])) := by decide
  have hb : parseF64 (trimChars (" bad ".data)) = none := by decide
  exact ⟨hg, hb, claim_c5 false [9] [8] (some (true, [7]))
    ("9.8e-7\n".data) (" bad ".data) (-100) (10 ^ 9)
    (by decide) (by decide) (by decide)
    (by intro en eds h; cases h; exact ⟨by decide, by decide⟩) hg hb⟩

end CLD
